import Mathlib

/-!
Verification development for the datautilsk / fuzzerk sources.

The Rust sources are shallowly embedded: machine integers (`isize`) become
`Int` with explicit wrapping modulo 2^64 where the code wraps, `u8` bytes
become `Nat` values below 256, `Vec<u8>` becomes `List Nat`, Rust strings
become Lean `String` (processed as `List Char`), fallible code (Rust panics
and `Result::Err`) returns `Except String`, and the ambient nondeterminism
(PRNG draws, wall-clock reads, I/O outcomes) is threaded through an explicit
oracle `Nat → Nat` together with a consumption counter.
-/

set_option maxRecDepth 4000

deriving instance DecidableEq for Except

namespace DUK

/-- Oracle supplying nondeterministic values (PRNG draws, clock reads, I/O
outcomes).  `o k` is the k-th value consumed during a run. -/
abbrev Ora := Nat → Nat

/-! ## Association lists: shallow model of Rust `HashMap` (unique keys) -/

/-- Lookup in an association list (`HashMap::get`). -/
def alookup (l : List (String × α)) (k : String) : Option α :=
  match l with
  | [] => none
  | (k', v) :: t => if k' = k then some v else alookup t k

/-- Insert or replace a binding (`HashMap::insert`). -/
def aset (l : List (String × α)) (k : String) (v : α) : List (String × α) :=
  match l with
  | [] => [(k, v)]
  | (k', v') :: t => if k' = k then (k, v) :: t else (k', v') :: aset t k v

/-- Remove a binding (`HashMap::remove`). -/
def aremove (l : List (String × α)) (k : String) : List (String × α) :=
  match l with
  | [] => []
  | (k', v') :: t => if k' = k then aremove t k else (k', v') :: aremove t k

theorem alookup_aset (l : List (String × α)) (k m : String) (v : α) :
    alookup (aset l k v) m = if k = m then some v else alookup l m := by
  induction l with
  | nil =>
    by_cases hkm : k = m <;> simp [aset, alookup, hkm]
  | cons h t ih =>
    obtain ⟨k', v'⟩ := h
    by_cases hk : k' = k
    · subst hk
      by_cases hkm : k' = m <;> simp [aset, alookup, hkm]
    · by_cases hk'm : k' = m
      · subst hk'm
        have hkm : ¬ (k = k') := fun he => hk he.symm
        simp [aset, alookup, hk, hkm]
      · simp [aset, alookup, hk, hk'm, ih]

theorem alookup_aremove (l : List (String × α)) (k m : String) :
    alookup (aremove l k) m = if k = m then none else alookup l m := by
  induction l with
  | nil =>
    by_cases hkm : k = m <;> simp [aremove, alookup, hkm]
  | cons h t ih =>
    obtain ⟨k', v'⟩ := h
    by_cases hk : k' = k
    · subst hk
      by_cases hkm : k' = m
      · subst hkm ; simp [aremove, alookup, ih]
      · simp [aremove, alookup, hkm, ih]
    · by_cases hk'm : k' = m
      · subst hk'm
        have hkm : ¬ (k = k') := fun he => hk he.symm
        simp [aremove, alookup, hk, hkm]
      · simp [aremove, alookup, hk, hk'm, ih]

theorem aremove_of_alookup_none (l : List (String × α)) (k : String)
    (h : alookup l k = none) : aremove l k = l := by
  induction l with
  | nil => simp [aremove]
  | cons hd t ih =>
    obtain ⟨k', v'⟩ := hd
    by_cases hk : k' = k
    · subst hk ; simp [alookup] at h
    · simp [alookup, hk] at h
      simp [aremove, hk, ih h]

/-! ## remove_extra_whitespaces (src/datautils.rs lines 53-98)

The Rust loop is a character-at-a-time state machine over the flags
`besc`, `binquotes`, `bwhitespace`; we embed it as a step function
returning the updated state and the characters pushed to `outs`. -/

/-- State of the `remove_extra_whitespaces` loop: the three mutable flags. -/
structure RewState where
  besc : Bool
  binquotes : Bool
  bwhitespace : Bool
deriving DecidableEq, Repr

/-- One iteration of the `remove_extra_whitespaces` loop body on character
`c`: returns the updated flags and the characters pushed to `outs`. -/
def rewStep (st : RewState) (c : Char) : RewState × List Char :=
  if c.isWhitespace then
    if st.binquotes then (st, [c])
    else if st.bwhitespace then (st, [])
    else ({ st with bwhitespace := true }, [' '])
  else
    let st := { st with bwhitespace := false }
    if st.besc then ({ st with besc := false }, [c])
    else if c = '"' then ({ st with binquotes := !st.binquotes }, [c])
    else if c = '\\' then
      (if st.binquotes then { st with besc := true } else st, [c])
    else (st, [c])

/-- The whole loop of `remove_extra_whitespaces`, folded over the input. -/
def rewRun (st : RewState) : List Char → RewState × List Char
  | [] => (st, [])
  | c :: cs =>
    let s1 := rewStep st c
    let s2 := rewRun s1.1 cs
    (s2.1, s1.2 ++ s2.2)

/-- Embedding of `datautils::remove_extra_whitespaces`. -/
def remove_extra_whitespaces (ins : String) : String :=
  String.mk (rewRun ⟨false, false, false⟩ ins.data).2

theorem rewRun_append (st : RewState) (a b : List Char) :
    rewRun st (a ++ b) =
      ((rewRun (rewRun st a).1 b).1,
        (rewRun st a).2 ++ (rewRun (rewRun st a).1 b).2) := by
  induction a generalizing st with
  | nil => simp [rewRun]
  | cons c cs ih => simp [rewRun, ih, List.append_assoc]

/-- Every non-whitespace character is pushed to the output verbatim. -/
theorem rewStep_snd_nonws (st : RewState) (c : Char) (hw : ¬ c.isWhitespace) :
    (rewStep st c).2 = [c] := by
  unfold rewStep
  by_cases hbe : st.besc
  · simp [hw, hbe]
  · by_cases hq : c = '"'
    · simp [hw, hbe, hq]
    · by_cases hs : c = '\\'
      · by_cases hqq : st.binquotes <;> simp [hw, hbe, hq, hs, hqq]
      · simp [hw, hbe, hq, hs]

/-- Replaying the character a step emitted, from the state that emitted it,
performs the same step. -/
theorem rewStep_replay (st : RewState) (c e : Char)
    (h : (rewStep st c).2 = [e]) : rewStep st e = rewStep st c := by
  by_cases hw : c.isWhitespace
  · by_cases hq : st.binquotes
    · have h2 : (rewStep st c).2 = [c] := by simp [rewStep, hw, hq]
      rw [h2] at h
      obtain rfl : c = e := by simpa using h
      rfl
    · by_cases hb : st.bwhitespace
      · have h2 : (rewStep st c).2 = [] := by simp [rewStep, hw, hq, hb]
        rw [h2] at h ; cases h
      · have h2 : (rewStep st c).2 = [' '] := by simp [rewStep, hw, hq, hb]
        rw [h2] at h
        obtain rfl : ' ' = e := by simpa using h
        have hsp : (' ' : Char).isWhitespace := by decide
        simp [rewStep, hw, hq, hb, hsp]
  · rw [rewStep_snd_nonws st c hw] at h
    obtain rfl : c = e := by simpa using h
    rfl

/-- Each step either emits nothing (leaving the state unchanged) or emits a
single character. -/
theorem rewStep_cases (st : RewState) (c : Char) :
    (rewStep st c = (st, [])) ∨ (∃ e, (rewStep st c).2 = [e]) := by
  by_cases hw : c.isWhitespace
  · by_cases hq : st.binquotes
    · exact Or.inr ⟨c, by simp [rewStep, hw, hq]⟩
    · by_cases hb : st.bwhitespace
      · exact Or.inl (by simp [rewStep, hw, hq, hb])
      · exact Or.inr ⟨' ', by simp [rewStep, hw, hq, hb]⟩
  · exact Or.inr ⟨c, rewStep_snd_nonws st c hw⟩

/-- Reprocessing the output of the loop from the same initial state
reproduces the output and the final state. -/
theorem rewRun_idem (cs : List Char) (st : RewState) :
    rewRun st (rewRun st cs).2 = rewRun st cs := by
  induction cs generalizing st with
  | nil => simp [rewRun]
  | cons c cs ih =>
    rcases rewStep_cases st c with h | ⟨e, he⟩
    · simp only [rewRun, h]
      simpa using ih st
    · have hre := rewStep_replay st c e he
      simp only [rewRun, he, List.singleton_append]
      simp only [rewRun, hre, he]
      have htail := ih (rewStep st c).1
      simp [htail]

/-- A character processed while inside a double-quoted region is emitted
verbatim. -/
theorem rewStep_inquotes (st : RewState) (c : Char) (h : st.binquotes = true) :
    (rewStep st c).2 = [c] := by
  unfold rewStep
  by_cases hw : c.isWhitespace
  · simp [hw, h]
  · by_cases hbe : st.besc
    · simp [hw, hbe]
    · by_cases hq : c = '"'
      · simp [hw, hbe, hq]
      · by_cases hs : c = '\\'
        · simp [hw, hbe, hq, hs, h]
        · simp [hw, hbe, hq, hs]

/-- Claim C9: `remove_extra_whitespaces` is idempotent, and every character
lying inside a double-quoted region of the input (in the sense of the
function's own quote tracking, which treats `\` inside quotes as an escape)
is reproduced verbatim in the output: if the state after a prefix `p` has
`binquotes` set, the next character `c` appears in the output right after
the image of `p`. -/
theorem claim_c9_rew_idempotent_and_quote_preserving :
    (∀ s : String,
      remove_extra_whitespaces (remove_extra_whitespaces s) =
        remove_extra_whitespaces s) ∧
    (∀ (p : List Char) (c : Char) (r : List Char),
      (rewRun ⟨false, false, false⟩ p).1.binquotes = true →
      (rewRun ⟨false, false, false⟩ (p ++ c :: r)).2 =
        (rewRun ⟨false, false, false⟩ p).2 ++
          c :: (rewRun (rewStep (rewRun ⟨false, false, false⟩ p).1 c).1 r).2) := by
  constructor
  · intro s
    unfold remove_extra_whitespaces
    exact congrArg (fun p => String.mk p.2) (rewRun_idem s.data ⟨false, false, false⟩)
  · intro p c r h
    rw [rewRun_append]
    have h2 : (rewRun (rewRun ⟨false, false, false⟩ p).1 (c :: r)).2 =
        c :: (rewRun (rewStep (rewRun ⟨false, false, false⟩ p).1 c).1 r).2 := by
      simp only [rewRun]
      rw [show (rewStep (rewRun ⟨false, false, false⟩ p).1 c).2 = [c] from
        rewStep_inquotes _ c h]
      simp
    rw [h2]

/-- Witness for C9: concrete instantiation.  The input `a  "b  c"  d` is
normalised to `a "b  c" d`, a fixed point of the function, and the
character following the prefix `a "` (state inside quotes) is kept. -/
theorem claim_c9_witness :
    (remove_extra_whitespaces (remove_extra_whitespaces "a  \"b  c\"  d") =
      remove_extra_whitespaces "a  \"b  c\"  d") ∧
    ((rewRun ⟨false, false, false⟩ ['a', ' ', '"']).1.binquotes = true ∧
      (rewRun ⟨false, false, false⟩ (['a', ' ', '"'] ++ 'b' :: [' ', '"'])).2 =
        (rewRun ⟨false, false, false⟩ ['a', ' ', '"']).2 ++
          'b' :: (rewRun (rewStep (rewRun ⟨false, false, false⟩ ['a', ' ', '"']).1 'b').1
            [' ', '"']).2) :=
  ⟨claim_c9_rew_idempotent_and_quote_preserving.1 "a  \"b  c\"  d",
    by decide,
    claim_c9_rew_idempotent_and_quote_preserving.2 ['a', ' ', '"'] 'b' [' ', '"']
      (by decide)⟩

/-! ## Decimal / radix string primitives (models of Rust std integer
formatting and `from_str_radix`, as consumed by the repository) -/

/-- Decimal digits of `n`, least significant first; `fuel ≥ n` makes the
recursion total. -/
def decDigitsRev : Nat → Nat → List Nat
  | _, 0 => []
  | 0, _ + 1 => []
  | f + 1, n + 1 => (n + 1) % 10 :: decDigitsRev f ((n + 1) / 10)

/-- Value of a least-significant-first decimal digit list. -/
def valLSB : List Nat → Nat
  | [] => 0
  | d :: t => d + 10 * valLSB t

theorem valLSB_decDigitsRev (f : Nat) :
    ∀ n : Nat, n ≤ f → valLSB (decDigitsRev f n) = n := by
  induction f with
  | zero =>
    intro n h
    interval_cases n
    simp [decDigitsRev, valLSB]
  | succ f ih =>
    intro n h
    match n with
    | 0 => simp [decDigitsRev, valLSB]
    | n + 1 =>
      have hlt : (n + 1) / 10 < n + 1 := Nat.div_lt_self (Nat.succ_pos n) (by omega)
      have hle : (n + 1) / 10 ≤ f := by omega
      simp [decDigitsRev, valLSB, ih _ hle, Nat.mod_add_div]

theorem decDigitsRev_lt (f : Nat) : ∀ n : Nat, ∀ d ∈ decDigitsRev f n, d < 10 := by
  induction f with
  | zero =>
    intro n d hd
    match n with
    | 0 => simp [decDigitsRev] at hd
    | _ + 1 => simp [decDigitsRev] at hd
  | succ f ih =>
    intro n d hd
    match n with
    | 0 => simp [decDigitsRev] at hd
    | m + 1 =>
      simp only [decDigitsRev, List.mem_cons] at hd
      rcases hd with h | h
      · subst h ; exact Nat.mod_lt _ (by omega)
      · exact ih _ d h

theorem decDigitsRev_ne_nil (f n : Nat) (h1 : 0 < n) (h2 : n ≤ f) :
    decDigitsRev f n ≠ [] := by
  match f, n with
  | 0, n => omega
  | f + 1, 0 => omega
  | f + 1, n + 1 => simp [decDigitsRev]

/-- Digit character (`0`-`9`) for a digit value. -/
def digitChar (d : Nat) : Char := Char.ofNat (48 + d)

/-- Decimal character string of a natural number, as produced by Rust
`to_string` on unsigned values. -/
def natDecChars (n : Nat) : List Char :=
  if n = 0 then ['0'] else (decDigitsRev n n).reverse.map digitChar

/-- Embedding of Rust `isize::to_string`. -/
def isizeToString (i : Int) : String :=
  if i < 0 then String.mk ('-' :: natDecChars (-i).toNat)
  else String.mk (natDecChars i.toNat)

/-- Value of an ASCII digit character under radix `r` (`0-9`, `a-z`, `A-Z`),
as accepted by Rust `from_str_radix`. -/
def digitVal (r : Nat) (c : Char) : Option Nat :=
  let v : Option Nat :=
    if 48 ≤ c.toNat ∧ c.toNat ≤ 57 then some (c.toNat - 48)
    else if 97 ≤ c.toNat ∧ c.toNat ≤ 122 then some (c.toNat - 87)
    else if 65 ≤ c.toNat ∧ c.toNat ≤ 90 then some (c.toNat - 55)
    else none
  match v with
  | some d => if d < r then some d else none
  | none => none

/-- Accumulating digit parser for `from_str_radix`. -/
def parseDigitsAcc (r acc : Nat) : List Char → Option Nat
  | [] => some acc
  | c :: cs =>
    match digitVal r c with
    | none => none
    | some d => parseDigitsAcc r (acc * r + d) cs

def ISIZE_MIN : Int := -(2 ^ 63)

def ISIZE_MAX : Int := 2 ^ 63 - 1

/-- Magnitude-and-range part of `from_str_radix` after the sign has been
consumed: non-empty digit string, all valid digits, value within
`[lo, hi]`. -/
def fromStrRadixCore (r : Nat) (lo hi : Int) (neg : Bool) (digits : List Char) :
    Except String Int :=
  if digits = [] then .error "ERRR:FromStrRadix:cannot parse integer from empty string"
  else
    match parseDigitsAcc r 0 digits with
    | none => .error "ERRR:FromStrRadix:invalid digit found in string"
    | some m =>
      let v : Int := if neg then -(m : Int) else (m : Int)
      if v < lo ∨ hi < v then .error "ERRR:FromStrRadix:number too large to fit in target type"
      else .ok v

/-- Embedding of Rust `from_str_radix` for a signed target with value range
`[lo, hi]`: optional sign, then a non-empty run of valid digits. -/
def fromStrRadix (r : Nat) (lo hi : Int) (s : List Char) : Except String Int :=
  match s with
  | [] => .error "ERRR:FromStrRadix:cannot parse integer from empty string"
  | c :: t =>
    if c = '-' then fromStrRadixCore r lo hi true t
    else if c = '+' then fromStrRadixCore r lo hi false t
    else fromStrRadixCore r lo hi false (c :: t)

/-- Does the character list start with `0x`? (`str::starts_with("0x")`). -/
def startsWith0x : List Char → Bool
  | c1 :: c2 :: _ => c1 == '0' && c2 == 'x'
  | _ => false

/-- Embedding of Rust `str::trim` (drop whitespace at both ends). -/
def rustTrimChars (l : List Char) : List Char :=
  ((l.dropWhile Char.isWhitespace).reverse.dropWhile Char.isWhitespace).reverse

/-- Embedding of `datautils::intvalue::<isize>` (src/datautils.rs lines
192-201): trim, then decimal, or hexadecimal when prefixed `0x`; a parse
failure is a Rust panic, embedded as an error. -/
def intvalue (sval : String) : Except String Int :=
  if startsWith0x (rustTrimChars sval.data) then
    fromStrRadix 16 ISIZE_MIN ISIZE_MAX ((rustTrimChars sval.data).drop 2)
  else fromStrRadix 10 ISIZE_MIN ISIZE_MAX (rustTrimChars sval.data)

/-! ## Native-endian byte image of `isize` (models of `to_ne_bytes` /
`from_ne_bytes` on the little-endian 64-bit host) -/

/-- `n` little-endian bytes of a natural value. -/
def leBytes : Nat → Nat → List Nat
  | 0, _ => []
  | n + 1, v => v % 256 :: leBytes n (v / 256)

/-- Value of a little-endian byte list. -/
def leVal : List Nat → Nat
  | [] => 0
  | b :: t => b + 256 * leVal t

theorem leBytes_length (n v : Nat) : (leBytes n v).length = n := by
  induction n generalizing v with
  | zero => simp [leBytes]
  | succ n ih => simp [leBytes, ih]

theorem leVal_leBytes (n v : Nat) : leVal (leBytes n v) = v % 256 ^ n := by
  induction n generalizing v with
  | zero => simp [leBytes, leVal, Nat.mod_one]
  | succ n ih =>
    simp only [leBytes, leVal, ih]
    rw [pow_succ', Nat.mod_mul]

/-- Embedding of `isize::to_ne_bytes` (little-endian host): the 8-byte
two's-complement image. -/
def toNeBytes (i : Int) : List Nat := leBytes 8 (i % (2 ^ 64 : Int)).toNat

/-- Embedding of `isize::from_ne_bytes(bytes.try_into()...)`: fails unless
the buffer is exactly one machine word, then decodes two's complement. -/
def fromNeBytesIsize (b : List Nat) : Except String Int :=
  if b.length = 8 then
    .ok (if leVal b < 2 ^ 63 then (leVal b : Int) else (leVal b : Int) - 2 ^ 64)
  else .error "ERRR:Variant:GetISize:BufValue: Conversion failed"

theorem fromNeBytesIsize_toNeBytes (i : Int)
    (h1 : ISIZE_MIN ≤ i) (h2 : i ≤ ISIZE_MAX) :
    fromNeBytesIsize (toNeBytes i) = .ok i := by
  have p63 : ((2 : Int) ^ 63) = 9223372036854775808 := by norm_num
  have p64 : ((2 : Int) ^ 64) = 18446744073709551616 := by norm_num
  have p63n : ((2 : Nat) ^ 63) = 9223372036854775808 := by norm_num
  have p256 : ((256 : Nat) ^ 8) = 18446744073709551616 := by norm_num
  rw [ISIZE_MIN, p63] at h1
  rw [ISIZE_MAX, p63] at h2
  have hlen : (toNeBytes i).length = 8 := leBytes_length 8 _
  have hmod : leVal (toNeBytes i) = (i % (2 ^ 64 : Int)).toNat % 256 ^ 8 :=
    leVal_leBytes 8 _
  rw [p64, p256] at hmod
  have hu : leVal (toNeBytes i) = (i % (18446744073709551616 : Int)).toNat := by
    rw [hmod]
    apply Nat.mod_eq_of_lt
    omega
  unfold fromNeBytesIsize
  rw [hlen, if_pos rfl, hu, p63n, p64]
  by_cases hc : (i % (18446744073709551616 : Int)).toNat < 9223372036854775808
  · rw [if_pos hc]
    have harith : (((i % (18446744073709551616 : Int)).toNat : Int)) = i := by omega
    rw [harith]
  · rw [if_neg hc]
    have harith : (((i % (18446744073709551616 : Int)).toNat : Int)) -
        18446744073709551616 = i := by omega
    rw [harith]

/-! ## Round trip: `isize::to_string` then `intvalue` -/

theorem digitChar_props :
    ∀ d : Nat, d < 10 →
      (digitChar d).isWhitespace = false ∧ digitChar d ≠ '-' ∧
      digitChar d ≠ '+' ∧ (digitChar d == 'x') = false ∧
      digitVal 10 (digitChar d) = some d := by decide

theorem natDecChars_mem (n : Nat) :
    ∀ c ∈ natDecChars n, ∃ d : Nat, d < 10 ∧ c = digitChar d := by
  intro c hc
  unfold natDecChars at hc
  by_cases h0 : n = 0
  · simp [h0] at hc
    exact ⟨0, by omega, by simp [hc] ; rfl⟩
  · simp only [h0, if_false, List.mem_map, List.mem_reverse] at hc
    obtain ⟨d, hd, rfl⟩ := hc
    exact ⟨d, decDigitsRev_lt n n d hd, rfl⟩

theorem natDecChars_ne_nil (n : Nat) : natDecChars n ≠ [] := by
  unfold natDecChars
  by_cases h0 : n = 0
  · simp [h0]
  · simp only [h0, if_false]
    intro h
    have := decDigitsRev_ne_nil n n (by omega) (le_refl n)
    simp at h
    exact this h

theorem parseDigitsAcc_map_digitChar (r : Nat) (ds : List Nat)
    (hv : ∀ d ∈ ds, digitVal r (digitChar d) = some d) :
    ∀ acc : Nat, parseDigitsAcc r acc (ds.map digitChar) =
      some (List.foldl (fun a d => a * r + d) acc ds) := by
  induction ds with
  | nil => intro acc ; simp [parseDigitsAcc]
  | cons d t ih =>
    intro acc
    have hd := hv d (by simp)
    simp only [List.map_cons, parseDigitsAcc, hd, List.foldl_cons]
    exact ih (fun x hx => hv x (by simp [hx])) _

theorem foldl_reverse_valLSB (l : List Nat) (a : Nat) :
    List.foldl (fun acc d => acc * 10 + d) a l.reverse =
      a * 10 ^ l.length + valLSB l := by
  induction l generalizing a with
  | nil => simp [valLSB]
  | cons d t ih =>
    simp only [List.reverse_cons, List.foldl_append, List.foldl_cons,
      List.foldl_nil, ih, valLSB, List.length_cons]
    ring

theorem parseDigitsAcc_natDecChars (n : Nat) :
    parseDigitsAcc 10 0 (natDecChars n) = some n := by
  by_cases h0 : n = 0
  · subst h0 ; decide
  · unfold natDecChars
    simp only [h0, if_false]
    have hv : ∀ d ∈ (decDigitsRev n n).reverse, digitVal 10 (digitChar d) = some d := by
      intro d hd
      rw [List.mem_reverse] at hd
      exact (digitChar_props d (decDigitsRev_lt n n d hd)).2.2.2.2
    rw [parseDigitsAcc_map_digitChar 10 _ hv 0]
    congr 1
    have hr : ((decDigitsRev n n).reverse).reverse = decDigitsRev n n := by simp
    calc List.foldl (fun a d => a * 10 + d) 0 (decDigitsRev n n).reverse
        = List.foldl (fun a d => a * 10 + d) 0 (((decDigitsRev n n).reverse).reverse).reverse := by
          rw [hr]
      _ = 0 * 10 ^ ((decDigitsRev n n).reverse).reverse.length +
            valLSB ((decDigitsRev n n).reverse).reverse := by
          rw [foldl_reverse_valLSB]
      _ = n := by rw [hr] ; simp [valLSB_decDigitsRev n n (le_refl n)]

theorem natDecChars_nonws (n : Nat) : ∀ c ∈ natDecChars n, ¬ c.isWhitespace := by
  intro c hc
  obtain ⟨d, hd, rfl⟩ := natDecChars_mem n c hc
  simp [(digitChar_props d hd).1]

theorem rustTrimChars_eq_self (l : List Char) (h : ∀ c ∈ l, ¬ c.isWhitespace) :
    rustTrimChars l = l := by
  unfold rustTrimChars
  have h1 : l.dropWhile Char.isWhitespace = l := by
    cases l with
    | nil => rfl
    | cons c t =>
      have := h c (by simp)
      simp [List.dropWhile_cons, this]
  rw [h1]
  have h2 : l.reverse.dropWhile Char.isWhitespace = l.reverse := by
    cases hr : l.reverse with
    | nil => rfl
    | cons c t =>
      have hc : c ∈ l := by
        rw [← List.mem_reverse, hr] ; simp
      simp [List.dropWhile_cons, h c hc]
  rw [h2, List.reverse_reverse]

theorem startsWith0x_natDecChars (n : Nat) : startsWith0x (natDecChars n) = false := by
  unfold natDecChars
  by_cases h0 : n = 0
  · simp [h0, startsWith0x]
  · simp only [h0, if_false]
    cases hds : (decDigitsRev n n).reverse with
    | nil => simp [startsWith0x]
    | cons a t =>
      cases t with
      | nil => simp [startsWith0x]
      | cons b t2 =>
        have hb : b < 10 := by
          apply decDigitsRev_lt n n
          rw [← List.mem_reverse, hds]
          simp
        have := (digitChar_props b hb).2.2.2.1
        simp [startsWith0x, this]

theorem fromStrRadixCore_natDec (n : Nat) (neg : Bool)
    (hlo : ISIZE_MIN ≤ (if neg then -(n : Int) else (n : Int)))
    (hhi : (if neg then -(n : Int) else (n : Int)) ≤ ISIZE_MAX) :
    fromStrRadixCore 10 ISIZE_MIN ISIZE_MAX neg (natDecChars n) =
      .ok (if neg then -(n : Int) else (n : Int)) := by
  unfold fromStrRadixCore
  rw [if_neg (natDecChars_ne_nil n), parseDigitsAcc_natDecChars n]
  have hcond : ¬ ((if neg then -(n : Int) else (n : Int)) < ISIZE_MIN ∨
      ISIZE_MAX < (if neg then -(n : Int) else (n : Int))) := by
    push_neg
    exact ⟨hlo, hhi⟩
  exact if_neg hcond

/-- Core round trip: `intvalue (i.to_string()) = Ok(i)` for every in-range
`isize` value. -/
theorem intvalue_isizeToString (i : Int)
    (h1 : ISIZE_MIN ≤ i) (h2 : i ≤ ISIZE_MAX) :
    intvalue (isizeToString i) = .ok i := by
  by_cases hneg : i < 0
  · have hm : (0:Int) ≤ -i := by omega
    have hdata : (isizeToString i).data = '-' :: natDecChars (-i).toNat := by
      unfold isizeToString
      rw [if_pos hneg]
    unfold intvalue
    rw [hdata]
    have hnws : ∀ c ∈ '-' :: natDecChars (-i).toNat, ¬ c.isWhitespace := by
      intro c hc
      rcases List.mem_cons.mp hc with rfl | hc
      · decide
      · exact natDecChars_nonws _ c hc
    rw [rustTrimChars_eq_self _ hnws]
    have hsw : startsWith0x ('-' :: natDecChars (-i).toNat) = false := by
      cases hds : natDecChars (-i).toNat with
      | nil => simp [startsWith0x]
      | cons a t => simp [startsWith0x]
    rw [hsw]
    rw [if_neg (by simp)]
    simp only [fromStrRadix, if_true]
    have hcast : ((((-i).toNat : Nat)) : Int) = -i := Int.toNat_of_nonneg hm
    have := fromStrRadixCore_natDec (-i).toNat true
      (by rw [if_pos rfl, hcast] ; omega)
      (by rw [if_pos rfl, hcast] ; rw [ISIZE_MAX] ; omega)
    rw [this, if_pos rfl, hcast]
    rw [neg_neg]
  · push_neg at hneg
    have hdata : (isizeToString i).data = natDecChars i.toNat := by
      unfold isizeToString
      rw [if_neg (by omega)]
    unfold intvalue
    rw [hdata, rustTrimChars_eq_self _ (natDecChars_nonws i.toNat),
      startsWith0x_natDecChars i.toNat]
    rw [if_neg (by simp)]
    have hcast : ((i.toNat : Nat) : Int) = i := Int.toNat_of_nonneg hneg
    obtain ⟨c, t, hct⟩ : ∃ c t, natDecChars i.toNat = c :: t := by
      cases hds : natDecChars i.toNat with
      | nil => exact absurd hds (natDecChars_ne_nil _)
      | cons c t => exact ⟨c, t, rfl⟩
    obtain ⟨d, hd, hcd⟩ := natDecChars_mem i.toNat c (by rw [hct] ; simp)
    rw [hct]
    simp only [fromStrRadix]
    have hc1 : c ≠ '-' := by rw [hcd] ; exact (digitChar_props d hd).2.1
    have hc2 : c ≠ '+' := by rw [hcd] ; exact (digitChar_props d hd).2.2.1
    rw [if_neg hc1, if_neg hc2, ← hct]
    have := fromStrRadixCore_natDec i.toNat false
      (by rw [if_neg (by simp)] ; rw [hcast, ISIZE_MIN] ; omega)
      (by rw [if_neg (by simp)] ; rw [hcast] ; omega)
    rw [this, if_neg (by simp), hcast]

/-! ## The hex module (src/hex.rs) -/

namespace Hex

/-- Literal nibble table of `hex::hex_from_vu8` (src/hex.rs line 38). -/
def hexTable : List Char :=
  ['0', '1', '2', '3', '4', '5', '6', '7', '8', '9', 'A', 'B', 'C', 'D', 'E', 'F']

/-- Characters pushed for one byte: high nibble then low nibble, via the
table (src/hex.rs lines 42-46). -/
def hexByte (b : Nat) : List Char :=
  [hexTable.getD ((b &&& 0xF0) >>> 4) '0', hexTable.getD (b &&& 0x0F) '0']

/-- The character output of the `hex_from_vu8` loop. -/
def hexChars : List Nat → List Char
  | [] => []
  | b :: t => hexByte b ++ hexChars t

/-- Embedding of `hex::hex_from_vu8` (src/hex.rs lines 37-49). -/
def hex_from_vu8 (inv : List Nat) : String := String.mk (hexChars inv)

/-- The pair loop of `hex::vu8_from_hex` / `datautils::vu8_from_hex`: two
characters per byte via `u8::from_str_radix(.., 16)`; a leftover single
character corresponds to the out-of-bounds slice panic. -/
def vu8FromHexCore : List Char → Except String (List Nat)
  | [] => .ok []
  | [_] => .error "ERRR:DU:VU8FromHex:byte slice index out of bounds"
  | a :: b :: t =>
    match fromStrRadix 16 0 255 [a, b] with
    | .error e => .error e
    | .ok v =>
      match vu8FromHexCore t with
      | .error e => .error e
      | .ok rest => .ok (v.toNat :: rest)

/-- Embedding of `hex::vu8_from_hex` (src/hex.rs lines 19-32): rejects
odd-length input, then decodes byte pairs; on the empty string the source
loop bound `ins.len()-1` underflows `usize` and the byte slice panics, so
the empty input is an error as well. -/
def vu8_from_hex (ins : String) : Except String (List Nat) :=
  if ins.data.length % 2 ≠ 0 then
    .error "ERRR:DU:Vu8FromHex:Hex string length not even, something wrong???"
  else if ins.data.length = 0 then
    .error "ERRR:DU:Vu8FromHex:byte slice index out of bounds"
  else vu8FromHexCore ins.data

theorem hexChars_length (v : List Nat) : (hexChars v).length = 2 * v.length := by
  induction v with
  | nil => simp [hexChars]
  | cons b t ih => simp [hexChars, hexByte, ih] ; ring

theorem hexByte_decode : ∀ b : Nat, b < 256 →
    fromStrRadix 16 0 255 (hexByte b) = .ok (b : Int) := by decide

theorem vu8FromHexCore_hexChars (v : List Nat) (hb : ∀ b ∈ v, b < 256) :
    vu8FromHexCore (hexChars v) = .ok v := by
  induction v with
  | nil => rfl
  | cons b t ih =>
    have hb0 : b < 256 := hb b (by simp)
    have hdec := hexByte_decode b hb0
    have hbyte : hexByte b =
        [hexTable.getD ((b &&& 0xF0) >>> 4) '0', hexTable.getD (b &&& 0x0F) '0'] := rfl
    have hcs : hexChars (b :: t) = hexTable.getD ((b &&& 0xF0) >>> 4) '0' ::
        hexTable.getD (b &&& 0x0F) '0' :: hexChars t := by
      simp [hexChars, hexByte]
    rw [hcs]
    show (match fromStrRadix 16 0 255 [hexTable.getD ((b &&& 0xF0) >>> 4) '0',
        hexTable.getD (b &&& 0x0F) '0'] with
      | .error e => .error e
      | .ok v =>
        match vu8FromHexCore (hexChars t) with
        | .error e => .error e
        | .ok rest => .ok (v.toNat :: rest)) = Except.ok (b :: t)
    rw [show [hexTable.getD ((b &&& 0xF0) >>> 4) '0', hexTable.getD (b &&& 0x0F) '0']
      = hexByte b from rfl]
    rw [hdec, ih (fun x hx => hb x (by simp [hx]))]
    simp

/-- Claim C10: the hex module's encoder and decoder round-trip on every
non-empty byte vector: `vu8_from_hex(hex_from_vu8(v)) = Ok(v)`. -/
theorem claim_c10_hex_roundtrip (v : List Nat) (hne : v ≠ [])
    (hb : ∀ b ∈ v, b < 256) :
    vu8_from_hex (hex_from_vu8 v) = .ok v := by
  unfold vu8_from_hex hex_from_vu8
  have hvpos : 0 < v.length := by
    cases v with
    | nil => exact absurd rfl hne
    | cons a t => simp
  have hlen : (String.mk (hexChars v)).data.length % 2 = 0 := by
    show (hexChars v).length % 2 = 0
    rw [hexChars_length]
    omega
  have hne2 : ¬ (String.mk (hexChars v)).data.length = 0 := by
    show ¬ (hexChars v).length = 0
    rw [hexChars_length]
    omega
  rw [if_neg (by rw [hlen] ; simp), if_neg hne2]
  exact vu8FromHexCore_hexChars v hb

/-- Witness for C10 at `v = [0, 171, 255]`. -/
theorem claim_c10_witness :
    ([0, 171, 255] ≠ ([] : List Nat)) ∧ (∀ b ∈ [0, 171, 255], b < 256) ∧
      vu8_from_hex (hex_from_vu8 [0, 171, 255]) = .ok [0, 171, 255] :=
  ⟨by decide, by decide,
    claim_c10_hex_roundtrip [0, 171, 255] (by decide) (by decide)⟩

end Hex

/-! ## datautils hex encoder (src/datautils.rs lines 32-42)

This version pushes `bhigh.to_string()` / `blow.to_string()` for the two
nibble values, i.e. the decimal representation of each nibble. -/

/-- Character output of the `datautils::hex_from_vu8` loop. -/
def hexFromVu8Chars : List Nat → List Char
  | [] => []
  | b :: t =>
    natDecChars ((b &&& 0xF0) >>> 4) ++ natDecChars (b &&& 0x0F) ++ hexFromVu8Chars t

/-- Embedding of `datautils::hex_from_vu8` (src/datautils.rs lines 32-42). -/
def hex_from_vu8 (inv : List Nat) : String := String.mk (hexFromVu8Chars inv)

/-! ## Byte images of strings and oracle-driven byte generation -/

/-- UTF-8 encoding of one character (model of Rust `Vec::from(String)`). -/
def utf8Encode (c : Char) : List Nat :=
  let n := c.toNat
  if n < 0x80 then [n]
  else if n < 0x800 then [0xC0 ||| (n >>> 6), 0x80 ||| (n &&& 0x3F)]
  else if n < 0x10000 then
    [0xE0 ||| (n >>> 12), 0x80 ||| ((n >>> 6) &&& 0x3F), 0x80 ||| (n &&& 0x3F)]
  else
    [0xF0 ||| (n >>> 18), 0x80 ||| ((n >>> 12) &&& 0x3F),
      0x80 ||| ((n >>> 6) &&& 0x3F), 0x80 ||| (n &&& 0x3F)]

/-- UTF-8 byte image of a string. -/
def strBytes (s : String) : List Nat := (s.data.map utf8Encode).flatten

/-- `n` oracle-supplied random bytes starting at consumption index `k`. -/
def oraBytes (o : Ora) (k n : Nat) : List Nat :=
  (List.range n).map (fun i => o (k + i) % 256)

/-- Simplified model of `String::from_utf8_lossy` (std behaviour, only used
for the random-bytes string view): ASCII bytes map to their characters,
all other bytes to the replacement character. -/
def utf8Lossy (l : List Nat) : String :=
  String.mk (l.map (fun b => if b < 128 then Char.ofNat b else '�'))

/-- Two's-complement wrap of an unbounded integer into the `isize` range
(release-mode wrapping arithmetic / `as isize` truncation). -/
def wrap64 (i : Int) : Int := (i + 2 ^ 63) % 2 ^ 64 - 2 ^ 63

/-! ## Variant (src/vm/datas.rs) -/

/-- Embedding of `Variant` (src/vm/datas.rs lines 22-29). -/
inductive Variant where
  | IntValue (i : Int)
  | StrValue (s : String)
  | BufValue (b : List Nat)
  | XRandomBytes (n : Nat)
  | XTimeStamp
deriving DecidableEq, Repr

/-- Embedding of `Variant::get_isize` (src/vm/datas.rs lines 50-79).
Specials consume oracle values; conversion failures are panics, embedded as
errors.  For `XRandomBytes` the source builds `min(8, n)` random bytes and
then `try_into`s them into a `[u8; 8]`, which fails when `n < 8`. -/
def Variant.get_isize (v : Variant) (o : Ora) (k : Nat) : Except String (Int × Nat) :=
  match v with
  | .IntValue i => .ok (i, k)
  | .StrValue s =>
    match intvalue s with
    | .error e => .error e
    | .ok i => .ok (i, k)
  | .BufValue b =>
    match fromNeBytesIsize b with
    | .error e => .error e
    | .ok i => .ok (i, k)
  | .XTimeStamp => .ok (wrap64 (o k : Int), k + 1)
  | .XRandomBytes n =>
    if n < 8 then .error "ERRR:Variant:GetISize:XRandomBytes: Conversion failed"
    else
      match fromNeBytesIsize (oraBytes o k 8) with
      | .error e => .error e
      | .ok i => .ok (i, k + 8)

/-- Embedding of `Variant::get_string` (src/vm/datas.rs lines 101-126).
Note that the buffer case calls `datautils::hex_from_vu8`, the
decimal-nibble encoder. -/
def Variant.get_string (v : Variant) (o : Ora) (k : Nat) : String × Nat :=
  match v with
  | .IntValue i => (isizeToString i, k)
  | .StrValue s => (s, k)
  | .BufValue b => (hex_from_vu8 b, k)
  | .XTimeStamp => (String.mk (natDecChars (o k)), k + 1)
  | .XRandomBytes n => (utf8Lossy (oraBytes o k n), k + n)

/-- Embedding of `Variant::get_bufvu8` (src/vm/datas.rs lines 137-162). -/
def Variant.get_bufvu8 (v : Variant) (o : Ora) (k : Nat) : List Nat × Nat :=
  match v with
  | .IntValue i => (toNeBytes i, k)
  | .StrValue s => (strBytes s, k)
  | .BufValue b => (b, k)
  | .XTimeStamp => (leBytes 16 (o k), k + 1)
  | .XRandomBytes n => (oraBytes o k n, k + n)

/-- Claim C7: the three `isize` round trips through `Variant`: the string
view of an int parses back via `intvalue`; the byte view of an int is its
native-endian byte image; decoding that image as a buffer yields the
original int on the same host. -/
theorem claim_c7_int_roundtrips (i : Int) (o : Ora) (k : Nat)
    (h1 : ISIZE_MIN ≤ i) (h2 : i ≤ ISIZE_MAX) :
    intvalue ((Variant.IntValue i).get_string o k).1 = .ok i ∧
    ((Variant.IntValue i).get_bufvu8 o k).1 = toNeBytes i ∧
    (Variant.BufValue ((Variant.IntValue i).get_bufvu8 o k).1).get_isize o k =
      .ok (i, k) := by
  refine ⟨intvalue_isizeToString i h1 h2, rfl, ?_⟩
  show (match fromNeBytesIsize (toNeBytes i) with
    | .error e => .error e
    | .ok x => .ok (x, k)) = Except.ok (i, k)
  rw [fromNeBytesIsize_toNeBytes i h1 h2]

/-- Witness for C7 at `i = -5`. -/
theorem claim_c7_witness :
    (ISIZE_MIN ≤ (-5 : Int)) ∧ ((-5 : Int) ≤ ISIZE_MAX) ∧
    (intvalue ((Variant.IntValue (-5)).get_string (fun _ => 0) 0).1 = .ok (-5) ∧
      ((Variant.IntValue (-5)).get_bufvu8 (fun _ => 0) 0).1 = toNeBytes (-5) ∧
      (Variant.BufValue ((Variant.IntValue (-5)).get_bufvu8 (fun _ => 0) 0).1).get_isize
        (fun _ => 0) 0 = .ok (-5, 0)) :=
  ⟨by norm_num [ISIZE_MIN], by norm_num [ISIZE_MAX],
    claim_c7_int_roundtrips (-5) (fun _ => 0) 0 (by norm_num [ISIZE_MIN])
      (by norm_num [ISIZE_MAX])⟩

/-! ## Rust string-splitting primitives used by the VM compiler -/

/-- Is `pat` a prefix of `l`? (`str::starts_with`). -/
def startsWithL : List Char → List Char → Bool
  | [], _ => true
  | _ :: _, [] => false
  | p :: ps, c :: cs => p == c && startsWithL ps cs

/-- Worker for `split_once(' ')`. -/
def splitOnceSpAux (acc : List Char) : List Char → Option (List Char × List Char)
  | [] => none
  | c :: t => if c = ' ' then some (acc.reverse, t) else splitOnceSpAux (c :: acc) t

/-- Embedding of `str::split_once(' ')`. -/
def splitOnceSp (l : List Char) : Option (List Char × List Char) :=
  splitOnceSpAux [] l

/-- Worker for `split_whitespace`. -/
def splitWsAux : List Char → List Char → List (List Char)
  | [], cur => if cur = [] then [] else [cur.reverse]
  | c :: t, cur =>
    if c.isWhitespace then
      if cur = [] then splitWsAux t [] else cur.reverse :: splitWsAux t []
    else splitWsAux t (c :: cur)

/-- Embedding of `str::split_whitespace` (no empty pieces). -/
def splitWs (l : List Char) : List (List Char) := splitWsAux l []

/-- Embedding of `str::splitn(n, ' ')`: at most `n` pieces. -/
def splitNSp : Nat → List Char → List (List Char)
  | 0, _ => []
  | 1, l => [l]
  | Nat.succ (Nat.succ m), l =>
    match splitOnceSp l with
    | none => [l]
    | some (a, b) => a :: splitNSp (m + 1) b

/-- Worker for `split(" ")` (keeps empty pieces). -/
def splitAllSpAux : List Char → List Char → List (List Char)
  | [], cur => [cur.reverse]
  | c :: t, cur =>
    if c = ' ' then cur.reverse :: splitAllSpAux t [] else splitAllSpAux t (c :: cur)

/-- Embedding of `str::split(" ")`. -/
def splitAllSp (l : List Char) : List (List Char) := splitAllSpAux l []

/-- Worker for `split_once(pat)` with a multi-character pattern. -/
def splitOncePatAux (pat : List Char) (acc : List Char) :
    List Char → Option (List Char × List Char)
  | [] => none
  | c :: t =>
    if startsWithL pat (c :: t) then some (acc.reverse, (c :: t).drop pat.length)
    else splitOncePatAux pat (c :: acc) t

/-- Embedding of `str::split_once(pat)`. -/
def splitOncePat (pat l : List Char) : Option (List Char × List Char) :=
  splitOncePatAux pat [] l

/-! ## next_token (src/datautils.rs lines 103-157) -/

/-- The scanning loop of `next_token`, over the flags `bstart`,
`bstringmode`, `bescmode`; returns the accumulated token and `some rest`
when a terminator was hit (`itokend` inside the input) or `none` when the
input ran out (`itokend = len`, so `outs` becomes empty). -/
def ntAux : Bool → Bool → Bool → List Char → List Char × Option (List Char)
  | _, _, _, [] => ([], none)
  | bstart, bsm, besc, c :: cs =>
    if c.isWhitespace ∧ bstart then ntAux true bsm besc cs
    else if c = '"' ∧ bstart then
      let r := ntAux false true besc cs
      ('"' :: r.1, r.2)
    else if bsm then
      if c = '"' ∧ besc = false then (['"'], some cs)
      else if besc then
        let r := ntAux false bsm false cs
        (c :: r.1, r.2)
      else if c = '\\' then
        let r := ntAux false bsm true cs
        (c :: r.1, r.2)
      else
        let r := ntAux false bsm besc cs
        (c :: r.1, r.2)
    else
      if c = ' ' then ([], some cs)
      else
        let r := ntAux false bsm besc cs
        (c :: r.1, r.2)

/-- Embedding of `datautils::next_token` (src/datautils.rs lines 103-157).
The source returns `Ok((outs, tok))` — the remaining text FIRST and the
extracted token SECOND. -/
def next_token (ins : String) : Except String (String × String) :=
  let r := ntAux true false false ins.data
  let outs := match r.2 with
    | none => ""
    | some rest => String.mk rest
  .ok (outs, String.mk r.1)

/-! ## datautils vu8_from_hex (src/datautils.rs lines 17-27) -/

/-- Embedding of `datautils::vu8_from_hex`: no even-length check, so an
odd-length input panics on the final two-byte slice (embedded as the core
loop's error). -/
def vu8_from_hex (ins : String) : Except String (List Nat) :=
  Hex.vu8FromHexCore ins.data

/-! ## DataM: compiled operands (src/vm.rs lines 83-370) -/

/-- Embedding of `DataM` (src/vm.rs lines 83-93). -/
inductive DataM where
  | IntLiteral (i : Int)
  | IntVar (vid : String)
  | StringLiteral (s : String)
  | StringVar (vid : String)
  | BufData (b : List Nat)
  | AnyVar (vid : String)
  | XTimeStamp
  | XRandomBytes (n : Nat)
deriving DecidableEq, Repr

/-- ASCII reading of `char::is_numeric` (the program texts are ASCII). -/
def rustIsNumeric (c : Char) : Bool := c.isDigit

/-- ASCII reading of `char::is_alphabetic`. -/
def rustIsAlphabetic (c : Char) : Bool := c.isAlpha

/-- Strip one leading `"` (`str::strip_prefix('"')`). -/
def stripQuoteHead : List Char → Option (List Char)
  | c :: t => if c = '"' then some t else none
  | [] => none

/-- Strip one trailing `"` (`str::strip_suffix('"')`). -/
def stripQuoteLast (l : List Char) : Option (List Char) :=
  match l.getLast? with
  | some c => if c = '"' then some l.dropLast else none
  | none => none

/-- Embedding of `DataM::compile` (src/vm.rs lines 107-175).  `stype` is the
expected kind (`isize` / `string` / `any`); compile-time panics are
errors. -/
def DataM.compile (sdata0 stype : String) : Except String DataM :=
  let l := rustTrimChars sdata0.data
  if l = [] then .error "ERRR:DataM:Compile:Data token empty"
  else
    let schar := l.headD ' '
    let echar := l.getLastD ' '
    if rustIsNumeric schar || schar = '+' || schar = '-' then
      match intvalue (String.mk l) with
      | .error e => .error e
      | .ok i => .ok (.IntLiteral i)
    else if l.length ≥ 2 ∧ (schar = '"' ∨ echar = '"') then
      if schar ≠ echar then
        .error "ERRR:DataM:Compile:StringLiteral:Mising double quote at one of the ends"
      else
        match next_token (String.mk l) with
        | .error e => .error e
        | .ok td =>
          if td.2.length > 0 then
            .error "ERRR:DataM:Compile:StringLiteral:Extra data beyond end of the string"
          else
            match stripQuoteHead td.1.data with
            | none => .error "ERRR:DataM:Compile:StringLiteral:Missing double quote at start"
            | some r1 =>
              match stripQuoteLast r1 with
              | none => .error "ERRR:DataM:Compile:StringLiteral:Missing double quote at end"
              | some r2 => .ok (.StringLiteral (String.mk r2))
    else if l.length > 2 ∧ startsWithL ['$', '0', 'x'] l then
      match vu8_from_hex (String.mk (l.drop 3)) with
      | .error e => .error e
      | .ok b => .ok (.BufData b)
    else if l.length > 2 ∧ startsWithL ['_', '_'] l then
      if String.mk l = "__TIME__STAMP__" then .ok .XTimeStamp
      else if startsWithL "__RANDOM__BYTES__".data l then
        match splitOncePat "__BYTES__".data l with
        | none => .error "ERRR:DataM:Compile:RandomBytes"
        | some sp =>
          match fromStrRadix 10 0 (2 ^ 64 - 1) sp.2 with
          | .error e => .error e
          | .ok n => .ok (.XRandomBytes n.toNat)
      else .error "ERRR:DataM:Compile:Unknown Special Tag"
    else if ¬ rustIsAlphabetic schar then
      .error "ERRR:DataM:Variable name should start with a alphabetic char"
    else if stype = "isize" then .ok (.IntVar (String.mk l))
    else if stype = "string" then .ok (.StringVar (String.mk l))
    else if stype = "any" then .ok (.AnyVar (String.mk l))
    else .error "ERRR:DataM:Unknown type???"

/-! ## VM context (src/vm.rs lines 23-80)

The I/O bridge backends and the fuzz-chain runtime manager live in modules
that are not part of the sources (iob.rs, rtm.rs); following the
specification they are modelled abstractly: a bridge is an opaque handle
(`Unit`), bridge operation outcomes and fuzz-chain bytes come from the
oracle, and `fcrtm` is the list of registered fuzz-chain names. -/

structure Ctxt where
  strs : List (String × String)
  ints : List (String × Int)
  iobs : List (String × Unit)
  lbls : List (String × Nat)
  bufs : List (String × List Nat)
  stepu : Nat
  fcrtm : List String
  iptr : Nat
  iptrCommonupdate : Bool
  callstack : List Nat
  funcs : List (String × (Nat × List String))
  locals : List (List (String × String))
deriving DecidableEq, Repr

/-- Embedding of `Context::new` (src/vm.rs lines 39-54). -/
def Ctxt.new : Ctxt :=
  { strs := [], ints := [], iobs := [], lbls := [], bufs := [], stepu := 0,
    fcrtm := [], iptr := 0, iptrCommonupdate := true, callstack := [],
    funcs := [], locals := [] }

/-- Embedding of `Context::var_remove` (src/vm.rs lines 59-63): drop the
name from all three kind namespaces. -/
def Ctxt.var_remove (c : Ctxt) (vname : String) : Ctxt :=
  { c with
    ints := aremove c.ints vname,
    strs := aremove c.strs vname,
    bufs := aremove c.bufs vname }

/-- Embedding of `Context::varadd_int` (src/vm.rs lines 65-68). -/
def Ctxt.varadd_int (c : Ctxt) (vname : String) (v : Int) : Ctxt :=
  let c1 := c.var_remove vname
  { c1 with ints := aset c1.ints vname v }

/-- Embedding of `Context::varadd_str` (src/vm.rs lines 70-73). -/
def Ctxt.varadd_str (c : Ctxt) (vname : String) (v : String) : Ctxt :=
  let c1 := c.var_remove vname
  { c1 with strs := aset c1.strs vname v }

/-- Embedding of `Context::varadd_buf` (src/vm.rs lines 75-78). -/
def Ctxt.varadd_buf (c : Ctxt) (vname : String) (v : List Nat) : Ctxt :=
  let c1 := c.var_remove vname
  { c1 with bufs := aset c1.bufs vname v }

/-! ## DataM runtime views (src/vm.rs lines 184-368) -/

/-- Embedding of `DataM::get_isize` (src/vm.rs lines 184-238).  The context
is only read; oracle consumption is returned alongside the value. -/
def DataM.get_isize (dm : DataM) (o : Ora) (k : Nat) (c : Ctxt) :
    Except String (Int × Nat) :=
  match dm with
  | .IntLiteral i => .ok (i, k)
  | .IntVar vid =>
    match alookup c.ints vid with
    | none => .error "ERRR:DataM:GetISize:IntVar: Failed to get var"
    | some i => .ok (i, k)
  | .StringLiteral s =>
    match intvalue s with
    | .error e => .error e
    | .ok i => .ok (i, k)
  | .StringVar vid =>
    match alookup c.strs vid with
    | none => .error "ERRR:DataM:GetISize:StringVar: Failed to get var"
    | some s =>
      match intvalue s with
      | .error e => .error e
      | .ok i => .ok (i, k)
  | .BufData b =>
    match fromNeBytesIsize b with
    | .error e => .error e
    | .ok i => .ok (i, k)
  | .AnyVar vid =>
    match alookup c.ints vid with
    | some i => .ok (i, k)
    | none =>
      match alookup c.strs vid with
      | some s =>
        match intvalue s with
        | .error e => .error e
        | .ok i => .ok (i, k)
      | none =>
        match alookup c.bufs vid with
        | some b =>
          match fromNeBytesIsize b with
          | .error e => .error e
          | .ok i => .ok (i, k)
        | none => .error ("ERRR:DataM:GetISize:AnyVar:Unknown:" ++ vid)
  | .XTimeStamp => .ok (wrap64 (o k : Int), k + 1)
  | .XRandomBytes n =>
    if n < 8 then .error "ERRR:DataM:GetISize:XRandomBytes: Conversion failed"
    else
      match fromNeBytesIsize (oraBytes o k 8) with
      | .error e => .error e
      | .ok i => .ok (i, k + 8)

/-- Embedding of `DataM::get_usize` (src/vm.rs lines 244-250). -/
def DataM.get_usize (dm : DataM) (o : Ora) (k : Nat) (c : Ctxt) :
    Except String (Nat × Nat) :=
  match dm.get_isize o k c with
  | .error e => .error e
  | .ok (i, k') =>
    if i < 0 then .error "ERRR:DataM:GetUSize: Negative int value not supported here"
    else .ok (i.toNat, k')

/-- Embedding of `DataM::get_string` (src/vm.rs lines 260-306).  The
timestamp case formats the system time Debug representation; it is modelled
as an oracle-derived decimal string. -/
def DataM.get_string (dm : DataM) (o : Ora) (k : Nat) (c : Ctxt) :
    Except String (String × Nat) :=
  match dm with
  | .IntLiteral i => .ok (isizeToString i, k)
  | .IntVar vid =>
    match alookup c.ints vid with
    | none => .error "ERRR:DataM:GetString:IntVar: Failed to get var"
    | some i => .ok (isizeToString i, k)
  | .StringLiteral s => .ok (s, k)
  | .StringVar vid =>
    match alookup c.strs vid with
    | none => .error "ERRR:DataM:GetString:StringVar: Failed to get var"
    | some s => .ok (s, k)
  | .BufData b => .ok (hex_from_vu8 b, k)
  | .AnyVar vid =>
    match alookup c.ints vid with
    | some i => .ok (isizeToString i, k)
    | none =>
      match alookup c.strs vid with
      | some s => .ok (s, k)
      | none =>
        match alookup c.bufs vid with
        | some b => .ok (hex_from_vu8 b, k)
        | none => .error ("ERRR:DataM:GetString:AnyVar:Unknown:" ++ vid)
  | .XTimeStamp => .ok (String.mk (natDecChars (o k)), k + 1)
  | .XRandomBytes n => .ok (utf8Lossy (oraBytes o k n), k + n)

/-- Embedding of `DataM::get_bufvu8` (src/vm.rs lines 318-368). -/
def DataM.get_bufvu8 (dm : DataM) (o : Ora) (k : Nat) (c : Ctxt) :
    Except String (List Nat × Nat) :=
  match dm with
  | .IntLiteral i => .ok (toNeBytes i, k)
  | .IntVar vid =>
    match alookup c.ints vid with
    | none => .error "ERRR:DataM:GetBuf:IntVar: Failed to get var"
    | some i => .ok (toNeBytes i, k)
  | .StringLiteral s => .ok (strBytes s, k)
  | .StringVar vid =>
    match alookup c.strs vid with
    | none => .error "ERRR:DataM:GetBuf:StringVar: Failed to get var"
    | some s => .ok (strBytes s, k)
  | .BufData b => .ok (b, k)
  | .AnyVar vid =>
    match alookup c.ints vid with
    | some i => .ok (toNeBytes i, k)
    | none =>
      match alookup c.strs vid with
      | some s => .ok (strBytes s, k)
      | none =>
        match alookup c.bufs vid with
        | some b => .ok (b, k)
        | none => .error ("ERRR:DataM:GetBuf:AnyVar:Unknown:" ++ vid)
  | .XTimeStamp => .ok (leBytes 16 (o k), k + 1)
  | .XRandomBytes n => .ok (oraBytes o k n, k + n)

/-! ## Conditions and instructions (src/vm.rs lines 377-474) -/

/-- Embedding of `CondOp` (src/vm.rs lines 377-385). -/
inductive CondOp where
  | IfLtInt
  | IfGtInt
  | IfLeInt
  | IfGeInt
  | IfEqBuf
  | IfNeBuf
deriving DecidableEq, Repr

/-- Embedding of `ALUOP` (src/vm.rs lines 438-445). -/
inductive ALUOP where
  | Add
  | Sub
  | Mult
  | Div
  | Mod
deriving DecidableEq, Repr

/-- Embedding of `Op` (src/vm.rs lines 448-474). -/
inductive Op where
  | Nop
  | LetStr (vid : String) (dm : DataM)
  | LetInt (vid : String) (dm : DataM)
  | Inc (vid : String)
  | Dec (vid : String)
  | Alu (aluop : ALUOP) (destvid : String) (src1 src2 : DataM)
  | IobNew (ioid ioaddr : String) (ioargs : List (String × String))
  | IobWrite (ioid bufid : String)
  | IobFlush (ioid : String)
  | IobRead (ioid bufid : String)
  | IobClose (ioid : String)
  | If (cop : CondOp) (v1 v2 : DataM) (sop destname : String) (destargs : List String)
  | CheckJump (a1 a2 : DataM) (ltlabel eqlabel gtlabel : String)
  | Jump (label : String)
  | Call (label : String) (args : List String)
  | Ret
  | SleepMSec (dm : DataM)
  | FcGet (fcid bufid : String)
  | BufNew (bufid : String) (dm : DataM)
  | LetBuf (bufid : String) (dm : DataM)
  | LetBufStr (bufid : String) (dm : DataM)
  | Buf8Randomize (bufid : String) (rc so eo sv ev : DataM)
  | BufsMerge (destbufid : String) (srcs : List String)
  | BufMerged (mtype : Char) (destbufid : String) (srcs : List DataM)
deriving DecidableEq, Repr

/-- The `IfLtInt` primitive of `CondOp::check` (src/vm.rs lines 400-408). -/
def ltCheck (o : Ora) (k : Nat) (c : Ctxt) (v1 v2 : DataM) :
    Except String (Bool × Nat) :=
  match v1.get_isize o k c with
  | .error e => .error e
  | .ok (a, k1) =>
    match v2.get_isize o k1 c with
    | .error e => .error e
    | .ok (b, k2) => .ok (decide (a < b), k2)

/-- The `IfEqBuf` primitive of `CondOp::check` (src/vm.rs lines 420-428). -/
def eqBufCheck (o : Ora) (k : Nat) (c : Ctxt) (v1 v2 : DataM) :
    Except String (Bool × Nat) :=
  match v1.get_bufvu8 o k c with
  | .error e => .error e
  | .ok (a, k1) =>
    match v2.get_bufvu8 o k1 c with
    | .error e => .error e
    | .ok (b, k2) => .ok (decide (a = b), k2)

/-- Embedding of `CondOp::check` (src/vm.rs lines 398-433): `>` swaps the
operands of `<`; `<=` and `>=` add one to the bound first (evaluating that
operand before the check, as the source does); `!=` negates `==`. -/
def CondOp.check (cop : CondOp) (o : Ora) (k : Nat) (c : Ctxt) (val1 val2 : DataM) :
    Except String (Bool × Nat) :=
  match cop with
  | .IfLtInt => ltCheck o k c val1 val2
  | .IfGtInt => ltCheck o k c val2 val1
  | .IfLeInt =>
    match val2.get_isize o k c with
    | .error e => .error e
    | .ok (b, k1) => ltCheck o k1 c val1 (.IntLiteral (wrap64 (b + 1)))
  | .IfGeInt =>
    match val1.get_isize o k c with
    | .error e => .error e
    | .ok (a, k1) => ltCheck o k1 c val2 (.IntLiteral (wrap64 (a + 1)))
  | .IfEqBuf => eqBufCheck o k c val1 val2
  | .IfNeBuf =>
    match eqBufCheck o k c val1 val2 with
    | .error e => .error e
    | .ok (r, k1) => .ok (!r, k1)

/-- ALU arithmetic (src/vm.rs lines 790-796): add/sub/mult wrap
(release-mode two's complement); division and remainder panic on a zero
divisor and on `isize::MIN / -1`. -/
def aluCompute (aluop : ALUOP) (a b : Int) : Except String Int :=
  match aluop with
  | .Add => .ok (wrap64 (a + b))
  | .Sub => .ok (wrap64 (a - b))
  | .Mult => .ok (wrap64 (a * b))
  | .Div =>
    if b = 0 ∨ (a = ISIZE_MIN ∧ b = -1) then .error "ERRR:FuzzerK:VM:Op:Alu:Div overflow"
    else .ok (Int.tdiv a b)
  | .Mod =>
    if b = 0 ∨ (a = ISIZE_MIN ∧ b = -1) then .error "ERRR:FuzzerK:VM:Op:Alu:Mod overflow"
    else .ok (Int.tmod a b)

/-- Embedding of `Vec::resize` for byte buffers. -/
def listResize (l : List Nat) (n fill : Nat) : List Nat :=
  if n ≤ l.length then l.take n else l ++ List.replicate (n - l.length) fill

/-- Embedding of the jump part of `Op::run` (src/vm.rs lines 896-902):
`__NEXT__` falls through, otherwise the label is resolved at run time. -/
def jumpRun (label : String) (c : Ctxt) : Except String Ctxt :=
  if label ≠ "__NEXT__" then
    match alookup c.lbls label with
    | none => .error ("ERRR:FuzzerK:VM:Op:Jump:Label:" ++ label)
    | some idx => .ok { c with iptr := idx, iptrCommonupdate := false }
  else .ok c

/-- Building the aliasing frame of a call (src/vm.rs lines 909-925): each
actual argument name is resolved through the caller's topmost locals frame
when present, and bound to the callee's formal. -/
def callResolveArgs (olastnames : Option (List (String × String)))
    (pairs : List (String × String)) : List (String × String) :=
  pairs.foldl
    (fun hm fa =>
      let basename :=
        match olastnames with
        | some lastnames =>
          match alookup lastnames fa.2 with
          | some bn => bn
          | none => fa.2
        | none => fa.2
      aset hm fa.1 basename)
    []

/-- Embedding of the `Call` arm of `Op::run` (src/vm.rs lines 903-930):
push the return index, resolve the function, check arity, push the aliasing
frame, branch. -/
def callRun (label : String) (passedargs : List String) (c : Ctxt) :
    Except String Ctxt :=
  match alookup c.funcs label with
  | none => .error ("ERRR:FuzzerK:VM:Op:Call:Func:" ++ label)
  | some fi =>
    if fi.2.length ≠ passedargs.length then
      .error "ERRR:FuzzerK:VM:Op:Call:Num of required and passed args dont match"
    else
      .ok { c with
            callstack := c.iptr :: c.callstack,
            locals := callResolveArgs c.locals.head? (fi.2.zip passedargs) :: c.locals,
            iptr := fi.1,
            iptrCommonupdate := false }

/-- The write loop of `Buf8Randomize` (src/vm.rs lines 986-990): each
iteration draws an offset in `[tstart, tstart+owidth)` and a value in
`[lo, lo+vwidth)`, and stores it; an out-of-range offset is an index
panic. -/
def b8rLoop (o : Ora) (tstart owidth lo vwidth : Nat) :
    Nat → Nat → List Nat → Except String (List Nat × Nat)
  | 0, k, b => .ok (b, k)
  | n + 1, k, b =>
    let curind := tstart + o k % owidth
    let curval := (lo + o (k + 1) % vwidth) % 256
    if curind < b.length then
      b8rLoop o tstart owidth lo vwidth n (k + 2) (b.set curind curval)
    else .error "ERRR:FuzzerK:VM:Op:Buf8Randomize:index out of bounds"

/-- Embedding of the `Buf8Randomize` arm of `Op::run` (src/vm.rs lines
951-992).  Negative rand-count draws a count below the buffer length;
negative start resolves to 0; negative end resolves to `len-1`; start/end
values are truncated `as u8`; the `usize`/`u16` width subtractions underflow
(panic) when end < start resp. hi < lo. -/
def buf8randomizeRun (o : Ora) (c : Ctxt) (k : Nat) (bufid : String)
    (dmrc dmso dmeo dmsv dmev : DataM) : Except String (Ctxt × Nat) :=
  match alookup c.bufs bufid with
  | none => .error ("ERRR:FuzzerK:VM:Op:Buf8Randomize:Buf:" ++ bufid)
  | some buf =>
    match dmrc.get_isize o k c with
    | .error e => .error e
    | .ok (randcount, k1) =>
      match (if randcount < 0 then
              (if buf.length = 0 then
                .error "ERRR:FuzzerK:VM:Op:Buf8Randomize:remainder by zero"
              else .ok (o k1 % buf.length, k1 + 1))
            else .ok (randcount.toNat, k1) : Except String (Nat × Nat)) with
      | .error e => .error e
      | .ok (trandcount, k2) =>
        match dmso.get_isize o k2 c with
        | .error e => .error e
        | .ok (soff, k3) =>
          let tstart := if soff < 0 then 0 else soff.toNat
          match dmeo.get_isize o k3 c with
          | .error e => .error e
          | .ok (eoff, k4) =>
            match (if eoff < 0 then
                    (if buf.length = 0 then
                      .error "ERRR:FuzzerK:VM:Op:Buf8Randomize:usize underflow"
                    else .ok (buf.length - 1))
                  else .ok eoff.toNat : Except String Nat) with
            | .error e => .error e
            | .ok tend =>
              match dmsv.get_isize o k4 c with
              | .error e => .error e
              | .ok (sv, k5) =>
                match dmev.get_isize o k5 c with
                | .error e => .error e
                | .ok (ev, k6) =>
                  if tend < tstart then
                    .error "ERRR:FuzzerK:VM:Op:Buf8Randomize:offsetwidth underflow"
                  else if (ev % 256).toNat < (sv % 256).toNat then
                    .error "ERRR:FuzzerK:VM:Op:Buf8Randomize:valwidth underflow"
                  else
                    match b8rLoop o tstart (tend - tstart + 1) (sv % 256).toNat
                        ((ev % 256).toNat - (sv % 256).toNat + 1) trandcount k6 buf with
                    | .error e => .error e
                    | .ok (buf', k7) => .ok (c.varadd_buf bufid buf', k7)

/-- Concatenate the named source buffers (src/vm.rs lines 996-1000); a
missing source is a panic. -/
def bufsConcat (c : Ctxt) : List String → Except String (List Nat)
  | [] => .ok []
  | s :: t =>
    match alookup c.bufs s with
    | none => .error ("ERRR:FuzzerK:VM:Op:BufsMerge:SrcBuf:" ++ s)
    | some b =>
      match bufsConcat c t with
      | .error e => .error e
      | .ok r => .ok (b ++ r)

/-- Concatenate `BufMerged` sources, rendered as bytes (`'b'`) or as UTF-8
strings (src/vm.rs lines 1006-1015). -/
def bufMergedConcat (o : Ora) (c : Ctxt) (mtype : Char) :
    List DataM → Nat → Except String (List Nat × Nat)
  | [], k => .ok ([], k)
  | dm :: t, k =>
    if mtype = 'b' then
      match dm.get_bufvu8 o k c with
      | .error e => .error e
      | .ok (b, k1) =>
        match bufMergedConcat o c mtype t k1 with
        | .error e => .error e
        | .ok (r, k2) => .ok (b ++ r, k2)
    else
      match dm.get_string o k c with
      | .error e => .error e
      | .ok (sv, k1) =>
        match bufMergedConcat o c mtype t k1 with
        | .error e => .error e
        | .ok (r, k2) => .ok (strBytes sv ++ r, k2)

/-- Embedding of `Op::run` (src/vm.rs lines 766-1020).  Runtime panics are
errors; logged-and-continue conditions do not change the outcome. -/
def Op.run (op : Op) (o : Ora) (s : Ctxt × Nat) : Except String (Ctxt × Nat) :=
  match op with
  | .Nop => .ok s
  | .LetStr vid dm =>
    match dm.get_string o s.2 s.1 with
    | .error e => .error e
    | .ok (sval, k') => .ok (s.1.varadd_str vid sval, k')
  | .LetInt vid dm =>
    match dm.get_isize o s.2 s.1 with
    | .error e => .error e
    | .ok (ival, k') => .ok (s.1.varadd_int vid ival, k')
  | .Inc vid =>
    match alookup s.1.ints vid with
    | none => .error ("ERRR:FuzzerK:VM:Op:Inc:" ++ vid)
    | some v => .ok (s.1.varadd_int vid (wrap64 (v + 1)), s.2)
  | .Dec vid =>
    match alookup s.1.ints vid with
    | none => .error ("ERRR:FuzzerK:VM:Op:Dec:" ++ vid)
    | some v => .ok (s.1.varadd_int vid (wrap64 (v - 1)), s.2)
  | .Alu aluop destvid dm1 dm2 =>
    match dm1.get_isize o s.2 s.1 with
    | .error e => .error e
    | .ok (a, k1) =>
      match dm2.get_isize o k1 s.1 with
      | .error e => .error e
      | .ok (b, k2) =>
        match aluCompute aluop a b with
        | .error e => .error e
        | .ok r => .ok (s.1.varadd_int destvid r, k2)
  | .IobNew ioid _ _ =>
    .ok ({ s.1 with iobs := aset s.1.iobs ioid () }, s.2 + 1)
  | .IobWrite ioid bufid =>
    match alookup s.1.bufs bufid with
    | none => .error ("ERRR:FuzzerK:VM:Op:IobWrite:FromBuf:" ++ bufid)
    | some _ =>
      match alookup s.1.iobs ioid with
      | none => .error ("ERRR:FuzzerK:VM:Op:IobWrite:" ++ ioid)
      | some _ => .ok (s.1, s.2 + 1)
  | .IobFlush ioid =>
    match alookup s.1.iobs ioid with
    | none => .error ("ERRR:FuzzerK:VM:Op:IobFlush:" ++ ioid)
    | some _ => .ok (s.1, s.2 + 1)
  | .IobRead ioid bufid =>
    match alookup s.1.bufs bufid with
    | none => .error ("ERRR:FuzzerK:VM:Op:IobRead:ToBuf:" ++ bufid)
    | some buf =>
      match alookup s.1.iobs ioid with
      | none => .error ("ERRR:FuzzerK:VM:Op:IobRead:" ++ ioid)
      | some _ =>
        if o s.2 = 0 then .error ("ERRR:FuzzerK:VM:Op:IobRead:" ++ ioid ++ ":read failed")
        else
          .ok ({ s.1 with bufs := aset s.1.bufs bufid (listResize buf (o (s.2 + 1)) 0) },
            s.2 + 2)
  | .IobClose ioid =>
    match alookup s.1.iobs ioid with
    | none => .error ("ERRR:FuzzerK:VM:Op:IobClose:" ++ ioid)
    | some _ => .ok ({ s.1 with iobs := aremove s.1.iobs ioid }, s.2 + 1)
  | .If cop v1 v2 sop destname destargs =>
    match cop.check o s.2 s.1 v1 v2 with
    | .error e => .error e
    | .ok (b, k1) =>
      if b then
        if sop = "goto" ∨ sop = "jump" then
          match jumpRun destname s.1 with
          | .error e => .error e
          | .ok c' => .ok (c', k1)
        else if sop = "call" then
          match callRun destname destargs s.1 with
          | .error e => .error e
          | .ok c' => .ok (c', k1)
        else .error "ERRR:FuzzerK:VM:Op:If:unknown dest type"
      else .ok (s.1, k1)
  | .CheckJump a1 a2 ltlabel eqlabel gtlabel =>
    match a1.get_isize o s.2 s.1 with
    | .error e => .error e
    | .ok (varg1, k1) =>
      match a2.get_isize o k1 s.1 with
      | .error e => .error e
      | .ok (varg2, k2) =>
        let label := if varg1 < varg2 then ltlabel
          else if varg1 = varg2 then eqlabel else gtlabel
        if label ≠ "__NEXT__" then
          match alookup s.1.lbls label with
          | none => .error ("ERRR:FuzzerK:VM:Op:CheckJump:Label:" ++ label)
          | some idx => .ok ({ s.1 with iptr := idx, iptrCommonupdate := false }, k2)
        else .ok (s.1, k2)
  | .Jump label =>
    match jumpRun label s.1 with
    | .error e => .error e
    | .ok c' => .ok (c', s.2)
  | .Call label args =>
    match callRun label args s.1 with
    | .error e => .error e
    | .ok c' => .ok (c', s.2)
  | .Ret =>
    match s.1.callstack with
    | [] => .error "ERRR:FuzzerK:VM:Op:Ret:CallStack"
    | ip :: rest => .ok ({ s.1 with iptr := ip, callstack := rest }, s.2)
  | .SleepMSec dm =>
    match dm.get_usize o s.2 s.1 with
    | .error e => .error e
    | .ok (_, k') => .ok (s.1, k')
  | .FcGet fcid bufid =>
    if s.1.fcrtm.contains fcid then
      let n := o s.2
      let c2 := s.1.varadd_buf bufid (oraBytes o (s.2 + 1) n)
      .ok ({ c2 with stepu := c2.stepu + 1 }, s.2 + 1 + n)
    else .error ("ERRR:FuzzerK:VM:Op:FcGet:UnknownFC???:" ++ fcid)
  | .BufNew bufid dm =>
    match dm.get_usize o s.2 s.1 with
    | .error e => .error e
    | .ok (bufsize, k') => .ok (s.1.varadd_buf bufid (List.replicate bufsize 0), k')
  | .LetBuf bufid dm =>
    match dm.get_bufvu8 o s.2 s.1 with
    | .error e => .error e
    | .ok (vdata, k') => .ok (s.1.varadd_buf bufid vdata, k')
  | .LetBufStr bufid dm =>
    match dm.get_string o s.2 s.1 with
    | .error e => .error e
    | .ok (vdata, k') => .ok (s.1.varadd_buf bufid (strBytes vdata), k')
  | .Buf8Randomize bufid rc so eo sv ev =>
    buf8randomizeRun o s.1 s.2 bufid rc so eo sv ev
  | .BufsMerge destbufid srcs =>
    match bufsConcat s.1 srcs with
    | .error e => .error e
    | .ok destbuf => .ok (s.1.varadd_buf destbufid destbuf, s.2)
  | .BufMerged mtype destbufid srcs =>
    match bufMergedConcat o s.1 mtype srcs s.2 with
    | .error e => .error e
    | .ok (destbuf, k') => .ok (s.1.varadd_buf destbufid destbuf, k')

/-! ## The run loop and the assembler (src/vm.rs lines 1025-1142) -/

/-- Embedding of `VM::run` (src/vm.rs lines 1127-1140), with explicit fuel;
running out of fuel is reported as a distinguished error, never as normal
termination. -/
def vmRun (ops : List Op) (o : Ora) : Nat → Ctxt × Nat → Except String (Ctxt × Nat)
  | 0, _ => .error "ERRR:FuzzerK:VM:Run:OutOfFuel"
  | fuel + 1, (c, k) =>
    if c.iptr ≥ ops.length then .ok (c, k)
    else
      let theop := ops.getD c.iptr .Nop
      match theop.run o ({ c with iptrCommonupdate := true }, k) with
      | .error e => .error e
      | .ok (c2, k2) =>
        vmRun ops o fuel
          (if c2.iptrCommonupdate then { c2 with iptr := c2.iptr + 1 } else c2, k2)

/-! ## The instruction compiler (src/vm.rs lines 479-760) -/

/-- Embedding of `Op::name_args` (src/vm.rs lines 479-489). -/
def Op.name_args (ins : String) : Except String (String × List String) :=
  match splitWs ins.data with
  | [] => .error ("NameArgs:name missing " ++ ins)
  | p :: rest => .ok (String.mk p, rest.map String.mk)

/-- Parse the `k=v` option list of `iobnew` (src/vm.rs lines 552-560). -/
def parseIoArgs : List (List Char) → Except String (List (String × String))
  | [] => .ok []
  | sioarg :: rest =>
    if sioarg.length = 0 then parseIoArgs rest
    else
      match splitOncePat ['='] sioarg with
      | none => .error "ERRR:FuzzerK:VM:Op:Compile:IobNew:IoArgs"
      | some kv =>
        match parseIoArgs rest with
        | .error e => .error e
        | .ok r => .ok ((String.mk kv.1, String.mk kv.2) :: r)

/-- The source-order `while` loop of the `bufmerged` compiler (src/vm.rs
lines 737-743): note that it compiles `tplus.0` — which `next_token`
returns as the REMAINING text — and loops on `tplus.1`, the token.  Fuel
bounds the loop; each iteration that does not fail strictly shrinks the
text, so the fuel is never exhausted when started at `length + 1`. -/
def bufMergedCompileLoop : Nat → List Char → List DataM → Except String (List DataM)
  | 0, _, _ => .error "ERRR:FuzzerK:VM:Op:Compile:BufMerged:loop fuel"
  | fuel + 1, tnext, acc =>
    if tnext.length = 0 then .ok acc.reverse
    else
      match next_token (String.mk tnext) with
      | .error e => .error e
      | .ok tplus =>
        match DataM.compile tplus.1 "any" with
        | .error e => .error e
        | .ok dm => bufMergedCompileLoop fuel tplus.2.data (dm :: acc)

/-- The per-argument compilation of `buf8randomize` (src/vm.rs lines
677-710): missing arguments take literal defaults. -/
def b8rArg (parts : List (List Char)) (idx : Nat) (dflt : String) :
    Except String DataM :=
  match parts.get? idx with
  | some p => DataM.compile (String.mk p) "isize"
  | none => DataM.compile dflt "isize"

/-- Embedding of `Op::compile` (src/vm.rs lines 491-760).  Returns the
compiled instruction together with the warnings logged while compiling
(`log_w` calls; only the two-token `bufsmerge` form warns).  Compile-time
panics are errors. -/
def Op.compile (opplus : String) : Except String (Op × List String) :=
  let sp := splitOnceSp opplus.data
  let sop := match sp with
    | some ab => String.mk ab.1
    | none => opplus
  let sargs0 := match sp with
    | some ab => String.mk ab.2
    | none => ""
  let sargs := String.mk (rustTrimChars sargs0.data)
  if sop = "nop" then .ok (.Nop, [])
  else if sop = "letstr" then
    match splitOnceSp sargs.data with
    | none => .error "ERRR:FuzzerK:VM:Op:Compile:LetStr"
    | some vs =>
      match DataM.compile (String.mk vs.2) "string" with
      | .error e => .error e
      | .ok dm => .ok (.LetStr (String.mk vs.1) dm, [])
  else if sop = "letint" then
    match splitOnceSp sargs.data with
    | none => .error "ERRR:FuzzerK:VM:Op:Compile:LetInt"
    | some vs =>
      match DataM.compile (String.mk vs.2) "isize" with
      | .error e => .error e
      | .ok dm => .ok (.LetInt (String.mk vs.1) dm, [])
  else if sop = "inc" then .ok (.Inc sargs, [])
  else if sop = "dec" then .ok (.Dec sargs, [])
  else if sop = "add" ∨ sop = "sub" ∨ sop = "mult" ∨ sop = "div" ∨ sop = "mod" then
    let aluop : ALUOP :=
      if sop = "add" then .Add
      else if sop = "sub" then .Sub
      else if sop = "mult" then .Mult
      else if sop = "div" then .Div
      else .Mod
    match splitWs sargs.data with
    | a0 :: a1 :: a2 :: _ =>
      match DataM.compile (String.mk a1) "isize" with
      | .error e => .error e
      | .ok dm1 =>
        match DataM.compile (String.mk a2) "isize" with
        | .error e => .error e
        | .ok dm2 => .ok (.Alu aluop (String.mk a0) dm1 dm2, [])
    | _ => .error "ERRR:FuzzerK:VM:Op:Compile:Alu:index out of bounds"
  else if sop = "iobnew" then
    match splitNSp 3 sargs.data with
    | a0 :: a1 :: rest =>
      let sioargs := match rest with
        | a2 :: _ => a2
        | [] => []
      match parseIoArgs (splitAllSp sioargs) with
      | .error e => .error e
      | .ok ioargs => .ok (.IobNew (String.mk a0) (String.mk a1) ioargs, [])
    | _ => .error "ERRR:FuzzerK:VM:Op:Compile:IobNew:InsufficientArgs"
  else if sop = "iobwrite" then
    match splitOnceSp sargs.data with
    | none => .error "ERRR:FuzzerK:VM:Op:Compile:IobWrite"
    | some ab => .ok (.IobWrite (String.mk ab.1) (String.mk ab.2), [])
  else if sop = "iobflush" then .ok (.IobFlush sargs, [])
  else if sop = "iobread" then
    match splitOnceSp sargs.data with
    | none => .error "ERRR:FuzzerK:VM:Op:Compile:IobRead"
    | some ab => .ok (.IobRead (String.mk ab.1) (String.mk ab.2), [])
  else if sop = "iobclose" then .ok (.IobClose sargs, [])
  else if sop = "iflt" ∨ sop = "iflt.i" ∨ sop = "ifgt" ∨ sop = "ifgt.i" ∨
      sop = "ifeq" ∨ sop = "ifeq.b" ∨ sop = "ifeq.i" ∨ sop = "ifeq.s" ∨
      sop = "ifne" ∨ sop = "ifne.b" ∨ sop = "ifne.i" ∨ sop = "ifne.s" ∨
      sop = "ifle" ∨ sop = "ifle.i" ∨ sop = "ifge" ∨ sop = "ifge.i" then
    match next_token sargs with
    | .error e => .error e
    | .ok n1 =>
      let arg0 := n1.1
      match next_token n1.2 with
      | .error e => .error e
      | .ok n2 =>
        let arg1 := n2.1
        match splitNSp 2 n2.2.data with
        | [dt, dd] =>
          match DataM.compile arg0 "any" with
          | .error e => .error e
          | .ok val1dm =>
            match DataM.compile arg1 "any" with
            | .error e => .error e
            | .ok val2dm =>
              let cop : CondOp :=
                if sop = "iflt" ∨ sop = "iflt.i" then .IfLtInt
                else if sop = "ifgt" ∨ sop = "ifgt.i" then .IfGtInt
                else if sop = "ifle" ∨ sop = "ifle.i" then .IfLeInt
                else if sop = "ifge" ∨ sop = "ifge.i" then .IfGeInt
                else if sop = "ifeq" ∨ sop = "ifeq.b" ∨ sop = "ifeq.i" ∨
                    sop = "ifeq.s" then .IfEqBuf
                else .IfNeBuf
              if String.mk dt = "goto" then
                .ok (.If cop val1dm val2dm "goto" (String.mk dd) [], [])
              else if String.mk dt = "call" then
                match Op.name_args (String.mk dd) with
                | .error e => .error e
                | .ok na => .ok (.If cop val1dm val2dm "call" na.1 na.2, [])
              else .error "ERRR:FuzzerK:VM:Op:Compile:If:unknown dest type"
        | _ => .error "ERRR:FuzzerK:VM:Op:Compile:If:InsufficientArgs"
  else if sop = "checkjump" then
    match splitNSp 5 sargs.data with
    | [a0, a1, a2, a3, a4] =>
      match DataM.compile (String.mk a0) "isize" with
      | .error e => .error e
      | .ok dm1 =>
        match DataM.compile (String.mk a1) "isize" with
        | .error e => .error e
        | .ok dm2 =>
          .ok (.CheckJump dm1 dm2 (String.mk a2) (String.mk a3) (String.mk a4), [])
    | _ => .error "ERRR:FuzzerK:VM:Op:Compile:CheckJump:InsufficientArgs"
  else if sop = "jump" ∨ sop = "goto" then .ok (.Jump sargs, [])
  else if sop = "call" then
    match Op.name_args sargs with
    | .error e => .error e
    | .ok na => .ok (.Call na.1 na.2, [])
  else if sop = "ret" then .ok (.Ret, [])
  else if sop = "sleepmsec" then
    match DataM.compile sargs "isize" with
    | .error e => .error e
    | .ok dm => .ok (.SleepMSec dm, [])
  else if sop = "fcget" then
    match splitOnceSp sargs.data with
    | none => .error "ERRR:FuzzerK:VM:Op:Compile:FcGet"
    | some ab => .ok (.FcGet (String.mk ab.1) (String.mk ab.2), [])
  else if sop = "bufnew" then
    match splitOnceSp sargs.data with
    | none => .error "ERRR:FuzzerK:VM:Op:Compile:BufNew"
    | some ab =>
      match DataM.compile (String.mk ab.2) "any" with
      | .error e => .error e
      | .ok dm => .ok (.BufNew (String.mk ab.1) dm, [])
  else if sop = "letbuf" ∨ sop = "letbuf.b" ∨ sop = "letbuf.s" then
    match splitOnceSp sargs.data with
    | none => .error "ERRR:FuzzerK:VM:Op:Compile:LetBuf+"
    | some ab =>
      match DataM.compile (String.mk ab.2) "any" with
      | .error e => .error e
      | .ok dm =>
        if sop = "letbuf" ∨ sop = "letbuf.b" then
          .ok (.LetBuf (String.mk ab.1) dm, [])
        else .ok (.LetBufStr (String.mk ab.1) dm, [])
  else if sop = "buf8randomize" then
    let parts := splitAllSp sargs.data
    let bufid := String.mk (parts.headD [])
    match b8rArg parts 1 "-1" with
    | .error e => .error e
    | .ok dmrc =>
      match b8rArg parts 2 "-1" with
      | .error e => .error e
      | .ok dmso =>
        match b8rArg parts 3 "-1" with
        | .error e => .error e
        | .ok dmeo =>
          match b8rArg parts 4 "0" with
          | .error e => .error e
          | .ok dmsv =>
            match b8rArg parts 5 "255" with
            | .error e => .error e
            | .ok dmev =>
              if parts.length > 6 then
                .error "ERRR:FuzzerK:VM:Op:Compile:Buf8Randomize:Too many args"
              else .ok (.Buf8Randomize bufid dmrc dmso dmeo dmsv dmev, [])
  else if sop = "bufsmerge" then
    match splitWs sargs.data with
    | [] => .error ("ERRR:FuzzerK:VM:Op:Compile:BufsMerge:Too few bufs:" ++ sargs)
    | [_] => .error ("ERRR:FuzzerK:VM:Op:Compile:BufsMerge:Too few bufs:" ++ sargs)
    | bufid :: vbufs =>
      let warns := if vbufs.length = 1 then
          ["WARN:FuzzerK:VM:Op:Compile:BufsMerge:Only a copy will occur, specify more buffers to concat:"
            ++ sargs]
        else []
      .ok (.BufsMerge (String.mk bufid) (vbufs.map String.mk), warns)
  else if sop = "bufmerged" ∨ sop = "bufmerged.s" ∨ sop = "bufmerged.b" then
    match splitOnceSp sargs.data with
    | none => .error "ERRR:FuzzerK:VM:Op:Compile:BufMerged:Extracting dest"
    | some ab =>
      match bufMergedCompileLoop (ab.2.length + 1) ab.2 [] with
      | .error e => .error e
      | .ok vdm =>
        let mtype : Char := if sop = "bufmerged.s" then 's' else 'b'
        .ok (.BufMerged mtype (String.mk ab.1) vdm, [])
  else .error ("ERRR:FuzzerK:VM:Op:Compile:UnknownOp:" ++ sop)

/-! ## The one-pass assembler (src/vm.rs lines 1025-1099) -/

/-- Embedding of the `VM` struct (ctxt plus the compiled instruction
list). -/
structure VMSt where
  ctxt : Ctxt
  ops : List Op
deriving DecidableEq, Repr

/-- Embedding of `VM::new`. -/
def VMSt.new : VMSt := { ctxt := Ctxt.new, ops := [] }

/-- Embedding of `VM::compile_directive` (src/vm.rs lines 1039-1058):
`!label NAME` binds the next instruction index; `!func NAME args…` records
the function entry and formals. -/
def compileDirective (v : VMSt) (sdirplus : String) : Except String VMSt :=
  match splitOnceSp sdirplus.data with
  | none => .error ("ERRR:FuzzerK:VM:CompileDirective:" ++ sdirplus)
  | some ab =>
    if String.mk ab.1 = "!label" then
      let nlbls := aset v.ctxt.lbls (String.mk ab.2) v.ops.length
      .ok { v with ctxt := { v.ctxt with lbls := nlbls } }
    else if String.mk ab.1 = "!func" then
      match splitWs ab.2 with
      | [] => .error "ERRR:FuzzerK:VM:CompileDirective:!func:function name missing"
      | fname :: fargs =>
        let nfuncs := aset v.ctxt.funcs (String.mk fname) (v.ops.length, fargs.map String.mk)
        .ok { v with ctxt := { v.ctxt with funcs := nfuncs } }
    else .error ("ERRR:FuzzerK:VM:CompileDirective:Unknown:" ++ sdirplus)

/-- Embedding of `VM::compile` (src/vm.rs lines 1060-1076): skip blank and
`#` lines, process `!` directives, compile everything else; also collects
the warnings the line compilers log. -/
def vmCompile (v : VMSt) : List String → Except String (VMSt × List String)
  | [] => .ok (v, [])
  | sop :: rest =>
    let t := String.mk (rustTrimChars sop.data)
    if startsWithL ['#'] t.data ∨ t.data.length = 0 then vmCompile v rest
    else if startsWithL ['!'] t.data then
      match compileDirective v t with
      | .error e => .error e
      | .ok v' => vmCompile v' rest
    else
      match Op.compile t with
      | .error e => .error e
      | .ok ow =>
        match vmCompile { v with ops := v.ops ++ [ow.1] } rest with
        | .error e => .error e
        | .ok vw => .ok (vw.1, ow.2 ++ vw.2)

/-- Compile a program and run it from the fresh context: the end-to-end
pipeline of `VM::compile` + `VM::run`. -/
def vmCompileRun (lines : List String) (o : Ora) (fuel : Nat) :
    Except String (Ctxt × Nat) :=
  match vmCompile VMSt.new lines with
  | .error e => .error e
  | .ok vw => vmRun vw.1.ops o fuel (vw.1.ctxt, 0)

/-! ## Claim C6: kind-uniqueness of variable names -/

/-- A name is bound in at most one of the three kind namespaces. -/
def inv (c : Ctxt) : Prop :=
  ∀ n : String,
    ¬ ((alookup c.ints n).isSome ∧ (alookup c.strs n).isSome) ∧
    ¬ ((alookup c.ints n).isSome ∧ (alookup c.bufs n).isSome) ∧
    ¬ ((alookup c.strs n).isSome ∧ (alookup c.bufs n).isSome)

theorem inv_maps_eq {c c' : Ctxt} (hi : c'.ints = c.ints) (hs : c'.strs = c.strs)
    (hb : c'.bufs = c.bufs) (h : inv c) : inv c' := by
  intro n
  rw [hi, hs, hb]
  exact h n

theorem inv_varadd_int (c : Ctxt) (vid : String) (v : Int) (h : inv c) :
    inv (c.varadd_int vid v) := by
  intro n
  unfold Ctxt.varadd_int Ctxt.var_remove
  simp only [alookup_aset, alookup_aremove]
  by_cases hn : vid = n
  · simp [hn]
  · simp only [if_neg hn]
    exact h n

theorem inv_varadd_str (c : Ctxt) (vid : String) (v : String) (h : inv c) :
    inv (c.varadd_str vid v) := by
  intro n
  unfold Ctxt.varadd_str Ctxt.var_remove
  simp only [alookup_aset, alookup_aremove]
  by_cases hn : vid = n
  · simp [hn]
  · simp only [if_neg hn]
    exact h n

theorem inv_varadd_buf (c : Ctxt) (vid : String) (v : List Nat) (h : inv c) :
    inv (c.varadd_buf vid v) := by
  intro n
  unfold Ctxt.varadd_buf Ctxt.var_remove
  simp only [alookup_aset, alookup_aremove]
  by_cases hn : vid = n
  · simp [hn]
  · simp only [if_neg hn]
    exact h n

theorem jumpRun_maps (label : String) (c c' : Ctxt) (h : jumpRun label c = .ok c') :
    c'.ints = c.ints ∧ c'.strs = c.strs ∧ c'.bufs = c.bufs := by
  unfold jumpRun at h
  by_cases hl : label ≠ "__NEXT__"
  · rw [if_pos hl] at h
    cases hx : alookup c.lbls label with
    | none => rw [hx] at h ; cases h
    | some idx =>
      simp only [hx] at h
      injection h with h
      subst h
      exact ⟨rfl, rfl, rfl⟩
  · rw [if_neg hl] at h
    injection h with h
    subst h
    exact ⟨rfl, rfl, rfl⟩

theorem callRun_maps (label : String) (args : List String) (c c' : Ctxt)
    (h : callRun label args c = .ok c') :
    c'.ints = c.ints ∧ c'.strs = c.strs ∧ c'.bufs = c.bufs := by
  unfold callRun at h
  cases hx : alookup c.funcs label with
  | none => rw [hx] at h ; cases h
  | some fi =>
    simp only [hx] at h
    by_cases ha : fi.2.length ≠ args.length
    · rw [if_pos ha] at h ; cases h
    · rw [if_neg ha] at h
      injection h with h
      subst h
      exact ⟨rfl, rfl, rfl⟩

theorem buf8randomizeRun_shape (o : Ora) (c : Ctxt) (k : Nat) (bufid : String)
    (dmrc dmso dmeo dmsv dmev : DataM) (c' : Ctxt) (k' : Nat)
    (h : buf8randomizeRun o c k bufid dmrc dmso dmeo dmsv dmev = .ok (c', k')) :
    ∃ b', c' = c.varadd_buf bufid b' := by
  unfold buf8randomizeRun at h
  cases h0 : alookup c.bufs bufid with
  | none => rw [h0] at h ; cases h
  | some buf =>
    simp only [h0] at h
    cases h1 : dmrc.get_isize o k c with
    | error e => rw [h1] at h ; cases h
    | ok p1 =>
      simp only [h1] at h
      cases h2 : (if p1.1 < 0 then
          (if buf.length = 0 then
            .error "ERRR:FuzzerK:VM:Op:Buf8Randomize:remainder by zero"
          else .ok (o p1.2 % buf.length, p1.2 + 1))
        else .ok (p1.1.toNat, p1.2) : Except String (Nat × Nat)) with
      | error e => rw [h2] at h ; cases h
      | ok p2 =>
        simp only [h2] at h
        cases h3 : dmso.get_isize o p2.2 c with
        | error e => rw [h3] at h ; cases h
        | ok p3 =>
          simp only [h3] at h
          cases h4 : dmeo.get_isize o p3.2 c with
          | error e => rw [h4] at h ; cases h
          | ok p4 =>
            simp only [h4] at h
            cases h5 : (if p4.1 < 0 then
                (if buf.length = 0 then
                  .error "ERRR:FuzzerK:VM:Op:Buf8Randomize:usize underflow"
                else .ok (buf.length - 1))
              else .ok p4.1.toNat : Except String Nat) with
            | error e => rw [h5] at h ; cases h
            | ok tend =>
              simp only [h5] at h
              cases h6 : dmsv.get_isize o p4.2 c with
              | error e => rw [h6] at h ; cases h
              | ok p6 =>
                simp only [h6] at h
                cases h7 : dmev.get_isize o p6.2 c with
                | error e => rw [h7] at h ; cases h
                | ok p7 =>
                  simp only [h7] at h
                  by_cases h8 : tend < (if p3.1 < 0 then 0 else p3.1.toNat)
                  · rw [if_pos h8] at h ; cases h
                  · rw [if_neg h8] at h
                    by_cases h9 : (p7.1 % 256).toNat < (p6.1 % 256).toNat
                    · rw [if_pos h9] at h ; cases h
                    · rw [if_neg h9] at h
                      cases h10 : b8rLoop o (if p3.1 < 0 then 0 else p3.1.toNat)
                          (tend - (if p3.1 < 0 then 0 else p3.1.toNat) + 1)
                          (p6.1 % 256).toNat
                          ((p7.1 % 256).toNat - (p6.1 % 256).toNat + 1) p2.1 p7.2 buf with
                      | error e => rw [h10] at h ; cases h
                      | ok pb =>
                        simp only [h10] at h
                        injection h with h
                        exact ⟨pb.1, (congrArg Prod.fst h).symm⟩

/-- Preservation of kind-uniqueness by every single instruction: any
successful `Op::run` step on a context where every name is bound under at
most one kind leaves a context with the same property.  Every name-binding
arm goes through `Context::varadd_*`, which first removes the name from all
three namespaces. -/
theorem opRun_preserves_inv (op : Op) (o : Ora) (c : Ctxt) (k : Nat)
    (c' : Ctxt) (k' : Nat) (h : Op.run op o (c, k) = .ok (c', k'))
    (hinv : inv c) : inv c' := by
  cases op with
  | Nop =>
    simp only [Op.run] at h
    injection h with h
    rw [show c' = c from (congrArg Prod.fst h).symm]
    exact hinv
  | LetStr vid dm =>
    simp only [Op.run] at h
    cases hg : dm.get_string o k c with
    | error e => rw [hg] at h ; cases h
    | ok p =>
      simp only [hg] at h
      injection h with h
      rw [show c' = c.varadd_str vid p.1 from (congrArg Prod.fst h).symm]
      exact inv_varadd_str c vid p.1 hinv
  | LetInt vid dm =>
    simp only [Op.run] at h
    cases hg : dm.get_isize o k c with
    | error e => rw [hg] at h ; cases h
    | ok p =>
      simp only [hg] at h
      injection h with h
      rw [show c' = c.varadd_int vid p.1 from (congrArg Prod.fst h).symm]
      exact inv_varadd_int c vid p.1 hinv
  | Inc vid =>
    simp only [Op.run] at h
    cases hg : alookup c.ints vid with
    | none => rw [hg] at h ; cases h
    | some v =>
      simp only [hg] at h
      injection h with h
      rw [show c' = c.varadd_int vid (wrap64 (v + 1)) from (congrArg Prod.fst h).symm]
      exact inv_varadd_int c vid _ hinv
  | Dec vid =>
    simp only [Op.run] at h
    cases hg : alookup c.ints vid with
    | none => rw [hg] at h ; cases h
    | some v =>
      simp only [hg] at h
      injection h with h
      rw [show c' = c.varadd_int vid (wrap64 (v - 1)) from (congrArg Prod.fst h).symm]
      exact inv_varadd_int c vid _ hinv
  | Alu aluop destvid dm1 dm2 =>
    simp only [Op.run] at h
    cases h1 : dm1.get_isize o k c with
    | error e => rw [h1] at h ; cases h
    | ok p1 =>
      simp only [h1] at h
      cases h2 : dm2.get_isize o p1.2 c with
      | error e => rw [h2] at h ; cases h
      | ok p2 =>
        simp only [h2] at h
        cases h3 : aluCompute aluop p1.1 p2.1 with
        | error e => rw [h3] at h ; cases h
        | ok r =>
          simp only [h3] at h
          injection h with h
          rw [show c' = c.varadd_int destvid r from (congrArg Prod.fst h).symm]
          exact inv_varadd_int c destvid r hinv
  | IobNew ioid ioaddr ioargs =>
    simp only [Op.run] at h
    injection h with h
    rw [show c' = { c with iobs := aset c.iobs ioid () } from (congrArg Prod.fst h).symm]
    exact inv_maps_eq rfl rfl rfl hinv
  | IobWrite ioid bufid =>
    simp only [Op.run] at h
    cases h1 : alookup c.bufs bufid with
    | none => rw [h1] at h ; cases h
    | some b =>
      simp only [h1] at h
      cases h2 : alookup c.iobs ioid with
      | none => rw [h2] at h ; cases h
      | some u =>
        simp only [h2] at h
        injection h with h
        rw [show c' = c from (congrArg Prod.fst h).symm]
        exact hinv
  | IobFlush ioid =>
    simp only [Op.run] at h
    cases h1 : alookup c.iobs ioid with
    | none => rw [h1] at h ; cases h
    | some u =>
      simp only [h1] at h
      injection h with h
      rw [show c' = c from (congrArg Prod.fst h).symm]
      exact hinv
  | IobRead ioid bufid =>
    simp only [Op.run] at h
    cases h1 : alookup c.bufs bufid with
    | none => rw [h1] at h ; cases h
    | some buf =>
      simp only [h1] at h
      cases h2 : alookup c.iobs ioid with
      | none => rw [h2] at h ; cases h
      | some u =>
        simp only [h2] at h
        by_cases h3 : o k = 0
        · rw [if_pos h3] at h ; cases h
        · rw [if_neg h3] at h
          injection h with h
          rw [show c' = { c with bufs := aset c.bufs bufid (listResize buf (o (k + 1)) 0) }
            from (congrArg Prod.fst h).symm]
          intro n
          simp only [alookup_aset]
          by_cases hn : bufid = n
          · subst hn
            have hb : (alookup c.bufs bufid).isSome := by rw [h1] ; rfl
            have h6 := hinv bufid
            constructor
            · exact h6.1
            · constructor
              · intro hc
                exact h6.2.1 ⟨hc.1, hb⟩
              · intro hc
                exact h6.2.2 ⟨hc.1, hb⟩
          · simp only [if_neg hn]
            exact hinv n
  | IobClose ioid =>
    simp only [Op.run] at h
    cases h1 : alookup c.iobs ioid with
    | none => rw [h1] at h ; cases h
    | some u =>
      simp only [h1] at h
      injection h with h
      rw [show c' = { c with iobs := aremove c.iobs ioid } from (congrArg Prod.fst h).symm]
      exact inv_maps_eq rfl rfl rfl hinv
  | If cop v1 v2 sop destname destargs =>
    simp only [Op.run] at h
    cases h1 : cop.check o k c v1 v2 with
    | error e => rw [h1] at h ; cases h
    | ok p =>
      simp only [h1] at h
      by_cases hb : p.1
      · rw [if_pos hb] at h
        by_cases hj : sop = "goto" ∨ sop = "jump"
        · rw [if_pos hj] at h
          cases h2 : jumpRun destname c with
          | error e => rw [h2] at h ; cases h
          | ok cj =>
            simp only [h2] at h
            injection h with h
            obtain ⟨hi, hs, hbm⟩ := jumpRun_maps destname c cj h2
            rw [show c' = cj from (congrArg Prod.fst h).symm]
            exact inv_maps_eq hi hs hbm hinv
        · rw [if_neg hj] at h
          by_cases hc : sop = "call"
          · rw [if_pos hc] at h
            cases h2 : callRun destname destargs c with
            | error e => rw [h2] at h ; cases h
            | ok cj =>
              simp only [h2] at h
              injection h with h
              obtain ⟨hi, hs, hbm⟩ := callRun_maps destname destargs c cj h2
              rw [show c' = cj from (congrArg Prod.fst h).symm]
              exact inv_maps_eq hi hs hbm hinv
          · rw [if_neg hc] at h ; cases h
      · rw [if_neg hb] at h
        injection h with h
        rw [show c' = c from (congrArg Prod.fst h).symm]
        exact hinv
  | CheckJump a1 a2 ltlabel eqlabel gtlabel =>
    simp only [Op.run] at h
    cases h1 : a1.get_isize o k c with
    | error e => rw [h1] at h ; cases h
    | ok p1 =>
      simp only [h1] at h
      cases h2 : a2.get_isize o p1.2 c with
      | error e => rw [h2] at h ; cases h
      | ok p2 =>
        simp only [h2] at h
        by_cases h3 : (if p1.1 < p2.1 then ltlabel
            else if p1.1 = p2.1 then eqlabel else gtlabel) ≠ "__NEXT__"
        · rw [if_pos h3] at h
          cases h4 : alookup c.lbls (if p1.1 < p2.1 then ltlabel
              else if p1.1 = p2.1 then eqlabel else gtlabel) with
          | none => rw [h4] at h ; cases h
          | some idx =>
            simp only [h4] at h
            injection h with h
            rw [show c' = { c with iptr := idx, iptrCommonupdate := false }
              from (congrArg Prod.fst h).symm]
            exact inv_maps_eq rfl rfl rfl hinv
        · rw [if_neg h3] at h
          injection h with h
          rw [show c' = c from (congrArg Prod.fst h).symm]
          exact hinv
  | Jump label =>
    simp only [Op.run] at h
    cases h1 : jumpRun label c with
    | error e => rw [h1] at h ; cases h
    | ok cj =>
      simp only [h1] at h
      injection h with h
      obtain ⟨hi, hs, hbm⟩ := jumpRun_maps label c cj h1
      rw [show c' = cj from (congrArg Prod.fst h).symm]
      exact inv_maps_eq hi hs hbm hinv
  | Call label args =>
    simp only [Op.run] at h
    cases h1 : callRun label args c with
    | error e => rw [h1] at h ; cases h
    | ok cj =>
      simp only [h1] at h
      injection h with h
      obtain ⟨hi, hs, hbm⟩ := callRun_maps label args c cj h1
      rw [show c' = cj from (congrArg Prod.fst h).symm]
      exact inv_maps_eq hi hs hbm hinv
  | Ret =>
    simp only [Op.run] at h
    cases hcs : c.callstack with
    | nil => rw [hcs] at h ; cases h
    | cons ip rest =>
      simp only [hcs] at h
      injection h with h
      rw [show c' = { c with iptr := ip, callstack := rest }
        from (congrArg Prod.fst h).symm]
      exact inv_maps_eq rfl rfl rfl hinv
  | SleepMSec dm =>
    simp only [Op.run] at h
    cases h1 : dm.get_usize o k c with
    | error e => rw [h1] at h ; cases h
    | ok p =>
      simp only [h1] at h
      injection h with h
      rw [show c' = c from (congrArg Prod.fst h).symm]
      exact hinv
  | FcGet fcid bufid =>
    simp only [Op.run] at h
    by_cases h1 : c.fcrtm.contains fcid
    · rw [if_pos h1] at h
      injection h with h
      rw [show c' = { c.varadd_buf bufid (oraBytes o (k + 1) (o k)) with
          stepu := (c.varadd_buf bufid (oraBytes o (k + 1) (o k))).stepu + 1 }
        from (congrArg Prod.fst h).symm]
      exact inv_maps_eq rfl rfl rfl (inv_varadd_buf c bufid _ hinv)
    · rw [if_neg h1] at h ; cases h
  | BufNew bufid dm =>
    simp only [Op.run] at h
    cases h1 : dm.get_usize o k c with
    | error e => rw [h1] at h ; cases h
    | ok p =>
      simp only [h1] at h
      injection h with h
      rw [show c' = c.varadd_buf bufid (List.replicate p.1 0)
        from (congrArg Prod.fst h).symm]
      exact inv_varadd_buf c bufid _ hinv
  | LetBuf bufid dm =>
    simp only [Op.run] at h
    cases h1 : dm.get_bufvu8 o k c with
    | error e => rw [h1] at h ; cases h
    | ok p =>
      simp only [h1] at h
      injection h with h
      rw [show c' = c.varadd_buf bufid p.1 from (congrArg Prod.fst h).symm]
      exact inv_varadd_buf c bufid _ hinv
  | LetBufStr bufid dm =>
    simp only [Op.run] at h
    cases h1 : dm.get_string o k c with
    | error e => rw [h1] at h ; cases h
    | ok p =>
      simp only [h1] at h
      injection h with h
      rw [show c' = c.varadd_buf bufid (strBytes p.1) from (congrArg Prod.fst h).symm]
      exact inv_varadd_buf c bufid _ hinv
  | Buf8Randomize bufid rc so eo sv ev =>
    simp only [Op.run] at h
    obtain ⟨b', hb'⟩ := buf8randomizeRun_shape o c k bufid rc so eo sv ev c' k' h
    rw [hb']
    exact inv_varadd_buf c bufid b' hinv
  | BufsMerge destbufid srcs =>
    simp only [Op.run] at h
    cases h1 : bufsConcat c srcs with
    | error e => rw [h1] at h ; cases h
    | ok destbuf =>
      simp only [h1] at h
      injection h with h
      rw [show c' = c.varadd_buf destbufid destbuf from (congrArg Prod.fst h).symm]
      exact inv_varadd_buf c destbufid destbuf hinv
  | BufMerged mtype destbufid srcs =>
    simp only [Op.run] at h
    cases h1 : bufMergedConcat o c mtype srcs k with
    | error e => rw [h1] at h ; cases h
    | ok p =>
      simp only [h1] at h
      injection h with h
      rw [show c' = c.varadd_buf destbufid p.1 from (congrArg Prod.fst h).symm]
      exact inv_varadd_buf c destbufid p.1 hinv

theorem vmRun_preserves_inv (ops : List Op) (o : Ora) :
    ∀ (fuel : Nat) (c : Ctxt) (k : Nat) (c' : Ctxt) (k' : Nat),
      inv c → vmRun ops o fuel (c, k) = .ok (c', k') → inv c' := by
  intro fuel
  induction fuel with
  | zero => intro c k c' k' _ h ; cases h
  | succ fuel ih =>
    intro c k c' k' hinv h
    simp only [vmRun] at h
    by_cases hend : c.iptr ≥ ops.length
    · rw [if_pos hend] at h
      injection h with h
      rw [show c' = c from (congrArg Prod.fst h).symm]
      exact hinv
    · rw [if_neg hend] at h
      cases hs : (ops.getD c.iptr .Nop).run o ({ c with iptrCommonupdate := true }, k) with
      | error e => rw [hs] at h ; cases h
      | ok p =>
        simp only [hs] at h
        have hinv1 : inv { c with iptrCommonupdate := true } :=
          inv_maps_eq rfl rfl rfl hinv
        have hinv2 : inv p.1 :=
          opRun_preserves_inv _ o _ k p.1 p.2 (by rw [hs]) hinv1
        have hinv3 : inv (if p.1.iptrCommonupdate then { p.1 with iptr := p.1.iptr + 1 }
            else p.1) := by
          by_cases hcu : p.1.iptrCommonupdate
          · rw [if_pos hcu] ; exact inv_maps_eq rfl rfl rfl hinv2
          · rw [if_neg hcu] ; exact hinv2
        exact ih _ _ c' k' hinv3 h

theorem inv_new : inv Ctxt.new := by
  intro n
  refine ⟨?_, ?_, ?_⟩ <;> exact fun hc => by simp [Ctxt.new, alookup] at hc

/-- Claim C6: kind-uniqueness of variable names at every reachable state:
the fresh context satisfies it, every successful instruction preserves it
(each binding arm goes through `varadd_*`, which first removes the name
from all three namespaces), and hence any successful run from an invariant
state ends in an invariant state. -/
theorem claim_c6_unique_kind_invariant :
    inv Ctxt.new ∧
    (∀ (op : Op) (o : Ora) (c : Ctxt) (k : Nat) (c' : Ctxt) (k' : Nat),
      inv c → Op.run op o (c, k) = .ok (c', k') → inv c') ∧
    (∀ (ops : List Op) (o : Ora) (fuel : Nat) (c : Ctxt) (k : Nat)
        (c' : Ctxt) (k' : Nat),
      inv c → vmRun ops o fuel (c, k) = .ok (c', k') → inv c') :=
  ⟨inv_new,
    fun op o c k c' k' hi h => opRun_preserves_inv op o c k c' k' h hi,
    fun ops o fuel c k c' k' hi h => vmRun_preserves_inv ops o fuel c k c' k' hi h⟩

/-- Witness for C6: a concrete step (`letint a 7` on the fresh context)
run through the theorem. -/
theorem claim_c6_witness :
    (Op.run (.LetInt "a" (.IntLiteral 7)) (fun _ => 0) (Ctxt.new, 0) =
      .ok (Ctxt.new.varadd_int "a" 7, 0)) ∧ inv (Ctxt.new.varadd_int "a" 7) :=
  ⟨rfl, claim_c6_unique_kind_invariant.2.1 (.LetInt "a" (.IntLiteral 7))
    (fun _ => 0) Ctxt.new 0 (Ctxt.new.varadd_int "a" 7) 0
    claim_c6_unique_kind_invariant.1 rfl⟩

/-! ## Claim C8: frame effect of buf8randomize -/

theorem b8rLoop_frame (o : Ora) (tstart owidth lo vwidth : Nat)
    (how : 0 < owidth) :
    ∀ (n k : Nat) (b b' : List Nat) (k' : Nat),
      b8rLoop o tstart owidth lo vwidth n k b = .ok (b', k') →
      b'.length = b.length ∧
      ∀ j : Nat, (j < tstart ∨ tstart + owidth ≤ j) → b'[j]? = b[j]? := by
  intro n
  induction n with
  | zero =>
    intro k b b' k' h
    simp only [b8rLoop] at h
    injection h with h
    rw [show b' = b from (congrArg Prod.fst h).symm]
    exact ⟨rfl, fun j _ => rfl⟩
  | succ n ih =>
    intro k b b' k' h
    simp only [b8rLoop] at h
    by_cases hc : tstart + o k % owidth < b.length
    · rw [if_pos hc] at h
      obtain ⟨hlen, hpres⟩ := ih (k + 2)
        (b.set (tstart + o k % owidth) ((lo + o (k + 1) % vwidth) % 256)) b' k' h
      refine ⟨by rw [hlen, List.length_set], ?_⟩
      intro j hj
      rw [hpres j hj, List.getElem?_set_ne]
      have hmod : o k % owidth < owidth := Nat.mod_lt _ how
      rcases hj with hj | hj
      · omega
      · omega
    · rw [if_neg hc] at h
      cases h

/-- Claim C8: for an existing non-empty buffer and resolved start/end
offsets within bounds (`s < 0` resolves to 0, `e < 0` resolves to
`len-1`), a successful `buf8randomize` leaves the buffer's length
unchanged, writes only offsets inside `[s_resolved, e_resolved]`, and
leaves the int and string namespaces and every other buffer untouched.
The first three operand hypotheses say the operands resolve to fixed
values without consuming the oracle (e.g. literals or variables). -/
theorem claim_c8_buf8randomize_frame (o : Ora) (c : Ctxt) (k : Nat)
    (bufid : String) (dmrc dmso dmeo dmsv dmev : DataM) (b : List Nat)
    (rc s e : Int) (c' : Ctxt) (k' : Nat)
    (hb : alookup c.bufs bufid = some b) (hne : b ≠ [])
    (h1 : ∀ kk, dmrc.get_isize o kk c = .ok (rc, kk))
    (h2 : ∀ kk, dmso.get_isize o kk c = .ok (s, kk))
    (h3 : ∀ kk, dmeo.get_isize o kk c = .ok (e, kk))
    (hse : (if s < 0 then 0 else s.toNat) ≤ (if e < 0 then b.length - 1 else e.toNat))
    (hbound : (if e < 0 then b.length - 1 else e.toNat) < b.length)
    (hints : alookup c.ints bufid = none)
    (hstrs : alookup c.strs bufid = none)
    (hrun : Op.run (.Buf8Randomize bufid dmrc dmso dmeo dmsv dmev) o (c, k) =
      .ok (c', k')) :
    c'.ints = c.ints ∧ c'.strs = c.strs ∧
    (∀ m, m ≠ bufid → alookup c'.bufs m = alookup c.bufs m) ∧
    (∃ b', alookup c'.bufs bufid = some b' ∧ b'.length = b.length ∧
      ∀ j : Nat, (j < (if s < 0 then 0 else s.toNat) ∨
          (if e < 0 then b.length - 1 else e.toNat) < j) →
        b'[j]? = b[j]?) := by
  have hlen0 : ¬ (b.length = 0) := by
    cases b with
    | nil => exact absurd rfl hne
    | cons a t => simp
  simp only [Op.run] at hrun
  unfold buf8randomizeRun at hrun
  simp only [hb, h1 k] at hrun
  obtain ⟨tc, k2, hstep⟩ : ∃ tc k2,
      (if rc < 0 then
        (if b.length = 0 then
          .error "ERRR:FuzzerK:VM:Op:Buf8Randomize:remainder by zero"
        else .ok (o k % b.length, k + 1))
      else .ok (rc.toNat, k) : Except String (Nat × Nat)) = .ok (tc, k2) := by
    by_cases hrc : rc < 0
    · exact ⟨o k % b.length, k + 1, by rw [if_pos hrc, if_neg hlen0]⟩
    · exact ⟨rc.toNat, k, by rw [if_neg hrc]⟩
  simp only [hstep, h2 k2, h3 k2] at hrun
  have hstep2 : (if e < 0 then
        (if b.length = 0 then
          .error "ERRR:FuzzerK:VM:Op:Buf8Randomize:usize underflow"
        else .ok (b.length - 1))
      else .ok e.toNat : Except String Nat) =
      .ok (if e < 0 then b.length - 1 else e.toNat) := by
    by_cases he : e < 0
    · rw [if_pos he, if_neg hlen0, if_pos he]
    · rw [if_neg he, if_neg he]
  simp only [hstep2] at hrun
  cases h6 : dmsv.get_isize o k2 c with
  | error e6 => rw [h6] at hrun ; cases hrun
  | ok p6 =>
    simp only [h6] at hrun
    cases h7 : dmev.get_isize o p6.2 c with
    | error e7 => rw [h7] at hrun ; cases hrun
    | ok p7 =>
      simp only [h7] at hrun
      rw [if_neg (by omega : ¬ ((if e < 0 then b.length - 1 else e.toNat) <
        (if s < 0 then 0 else s.toNat)))] at hrun
      by_cases hvw : (p7.1 % 256).toNat < (p6.1 % 256).toNat
      · rw [if_pos hvw] at hrun
        cases hrun
      · rw [if_neg hvw] at hrun
        cases hloop : b8rLoop o (if s < 0 then 0 else s.toNat)
            ((if e < 0 then b.length - 1 else e.toNat) -
              (if s < 0 then 0 else s.toNat) + 1)
            (p6.1 % 256).toNat
            ((p7.1 % 256).toNat - (p6.1 % 256).toNat + 1) tc p7.2 b with
        | error el => rw [hloop] at hrun ; cases hrun
        | ok pb =>
          simp only [hloop] at hrun
          injection hrun with hrun
          have hc' : c' = c.varadd_buf bufid pb.1 := (congrArg Prod.fst hrun).symm
          obtain ⟨hlen, hpres⟩ := b8rLoop_frame o (if s < 0 then 0 else s.toNat)
            ((if e < 0 then b.length - 1 else e.toNat) -
              (if s < 0 then 0 else s.toNat) + 1)
            (p6.1 % 256).toNat
            ((p7.1 % 256).toNat - (p6.1 % 256).toNat + 1)
            (by omega) tc p7.2 b pb.1 pb.2 (by rw [hloop])
          subst hc'
          refine ⟨?_, ?_, ?_, pb.1, ?_, hlen, ?_⟩
          · show aremove c.ints bufid = c.ints
            exact aremove_of_alookup_none c.ints bufid hints
          · show aremove c.strs bufid = c.strs
            exact aremove_of_alookup_none c.strs bufid hstrs
          · intro m hm
            show alookup (aset (aremove c.bufs bufid) bufid pb.1) m = alookup c.bufs m
            rw [alookup_aset]
            rw [if_neg (fun hx => hm hx.symm)]
            rw [alookup_aremove]
            rw [if_neg (fun hx => hm hx.symm)]
          · show alookup (aset (aremove c.bufs bufid) bufid pb.1) bufid = some pb.1
            rw [alookup_aset, if_pos rfl]
          · intro j hj
            exact hpres j (by omega)

/-- Witness for C8: `buf8randomize b 2 1 2 65 65` on `bufs[b] = [9,9,9,9]`
with the all-zero oracle rewrites only offset 1 and keeps the length. -/
theorem claim_c8_witness :
    (alookup (Ctxt.new.varadd_buf "b" [9, 9, 9, 9]).bufs "b" = some [9, 9, 9, 9]) ∧
    (([9, 9, 9, 9] : List Nat) ≠ []) ∧
    ((if (1 : Int) < 0 then 0 else (1 : Int).toNat) ≤
      (if (2 : Int) < 0 then [9, 9, 9, 9].length - 1 else (2 : Int).toNat)) ∧
    (((Ctxt.new.varadd_buf "b" [9, 9, 9, 9]).varadd_buf "b" [9, 65, 9, 9]).ints =
        (Ctxt.new.varadd_buf "b" [9, 9, 9, 9]).ints ∧
      ((Ctxt.new.varadd_buf "b" [9, 9, 9, 9]).varadd_buf "b" [9, 65, 9, 9]).strs =
        (Ctxt.new.varadd_buf "b" [9, 9, 9, 9]).strs ∧
      (∀ m, m ≠ "b" →
        alookup ((Ctxt.new.varadd_buf "b" [9, 9, 9, 9]).varadd_buf "b" [9, 65, 9, 9]).bufs m =
          alookup (Ctxt.new.varadd_buf "b" [9, 9, 9, 9]).bufs m) ∧
      (∃ b', alookup ((Ctxt.new.varadd_buf "b" [9, 9, 9, 9]).varadd_buf "b"
            [9, 65, 9, 9]).bufs "b" = some b' ∧
        b'.length = ([9, 9, 9, 9] : List Nat).length ∧
        ∀ j : Nat, (j < (if (1 : Int) < 0 then 0 else (1 : Int).toNat) ∨
            (if (2 : Int) < 0 then ([9, 9, 9, 9] : List Nat).length - 1
              else (2 : Int).toNat) < j) →
          b'[j]? = ([9, 9, 9, 9] : List Nat)[j]?)) :=
  ⟨rfl, by decide, by decide,
    claim_c8_buf8randomize_frame (fun _ => 0) (Ctxt.new.varadd_buf "b" [9, 9, 9, 9]) 0
      "b" (.IntLiteral 2) (.IntLiteral 1) (.IntLiteral 2) (.IntLiteral 65)
      (.IntLiteral 65) [9, 9, 9, 9] 2 1 2
      ((Ctxt.new.varadd_buf "b" [9, 9, 9, 9]).varadd_buf "b" [9, 65, 9, 9]) 4
      rfl (by decide) (fun kk => rfl) (fun kk => rfl) (fun kk => rfl)
      (by decide) (by decide) rfl rfl rfl⟩

/-! ## Claims C1, C2, C3, C5 -/

/-- Claim C1 (code-bug evaluation): the program `letint n 1 / call f n`
with `!func f x / inc x / ret` does NOT leave `ints[n] = 2`: the run
aborts inside the callee, because `call` pushes the aliasing frame
`x -> n` but `inc x` looks `x` up directly in the global int namespace
(`ctxt.ints.get`, src/vm.rs line 778) and no operation ever consults the
`locals` stack, so the lookup panics. -/
theorem claim_c1_call_aliasing_panics :
    vmCompileRun ["letint n 1", "call f n", "!func f x", "inc x", "ret"]
      (fun _ => 0) 20 = .error "ERRR:FuzzerK:VM:Op:Inc:x" := by
  rfl

/-- Claim C2 (code-bug evaluation): compiling the well-formed string
literal token `"hello"` (matching quotes, no trailing data) panics instead
of yielding `StringLiteral("hello")`: `datautils::next_token` returns
`(remaining, token)`, so `DataM::compile` reads the token itself as
trailing data (`tdata.1`) and the empty remainder as the literal
(`tdata.0`). -/
theorem claim_c2_string_literal_compile_fails :
    next_token "\"hello\"" = .ok ("", "\"hello\"") ∧
    DataM.compile "\"hello\"" "string" =
      .error "ERRR:DataM:Compile:StringLiteral:Extra data beyond end of the string" := by
  constructor
  · rfl
  · rfl

/-- Claim C3 (code-bug evaluation): in the program `jump main / !func f /
nop / ret / !label main / letint n 1 / call f`, the `call` pushes one
return index and one locals frame; after the `ret` executes and the run
terminates normally, the call stack is empty but the locals stack still
holds the frame — `Ret` (src/vm.rs lines 931-933) pops `callstack` only
and never pops `locals`. -/
theorem claim_c3_ret_does_not_pop_locals :
    (vmCompileRun ["jump main", "!func f", "nop", "ret", "!label main",
        "letint n 1", "call f"] (fun _ => 0) 20).toOption.map
      (fun ck => (ck.1.callstack.length, ck.1.locals.length)) = some (0, 1) := by
  rfl

/-- Reduction of `Op::compile` on a `bufsmerge` line: the behaviour is
decided by `split_whitespace` of the trimmed argument text. -/
theorem opCompile_bufsmerge (sargs : String) :
    Op.compile ("bufsmerge " ++ sargs) =
      (match splitWs (rustTrimChars sargs.data) with
       | [] => .error ("ERRR:FuzzerK:VM:Op:Compile:BufsMerge:Too few bufs:"
           ++ String.mk (rustTrimChars sargs.data))
       | [_] => .error ("ERRR:FuzzerK:VM:Op:Compile:BufsMerge:Too few bufs:"
           ++ String.mk (rustTrimChars sargs.data))
       | bufid :: vbufs =>
         .ok (.BufsMerge (String.mk bufid) (vbufs.map String.mk),
           if vbufs.length = 1 then
             ["WARN:FuzzerK:VM:Op:Compile:BufsMerge:Only a copy will occur, specify more buffers to concat:"
               ++ String.mk (rustTrimChars sargs.data)]
           else [])) := by
  cases sargs with
  | mk l => rfl

/-- Counterexample for C5: a `bufsmerge` with zero source buffers (the
destination token alone) is a fatal compile-time panic, not a logged
non-fatal condition. -/
theorem claim_c5_counterexample :
    Op.compile "bufsmerge onlydest" =
      .error "ERRR:FuzzerK:VM:Op:Compile:BufsMerge:Too few bufs:onlydest" := by
  rfl

/-- Claim C5 as amended: `bufsmerge` with fewer than two tokens (in
particular the zero-source form) is a FATAL compile error, while the
two-token form (destination plus a single source) logs a warning, compiles
to a plain copy and execution continues: running it replaces the
destination buffer with the source bytes and succeeds. -/
theorem claim_c5_amended_zero_fatal_two_copy (sargs : String) (d s : List Char)
    (b : List Nat) (c : Ctxt) (o : Ora) (k : Nat)
    (hbuf : alookup c.bufs (String.mk s) = some b) :
    (splitWs (rustTrimChars sargs.data) = [d] →
      Op.compile ("bufsmerge " ++ sargs) =
        .error ("ERRR:FuzzerK:VM:Op:Compile:BufsMerge:Too few bufs:"
          ++ String.mk (rustTrimChars sargs.data))) ∧
    (splitWs (rustTrimChars sargs.data) = [d, s] →
      Op.compile ("bufsmerge " ++ sargs) =
        .ok (.BufsMerge (String.mk d) [String.mk s],
          ["WARN:FuzzerK:VM:Op:Compile:BufsMerge:Only a copy will occur, specify more buffers to concat:"
            ++ String.mk (rustTrimChars sargs.data)])) ∧
    Op.run (.BufsMerge (String.mk d) [String.mk s]) o (c, k) =
      .ok (c.varadd_buf (String.mk d) b, k) := by
  refine ⟨?_, ?_, ?_⟩
  · intro h
    rw [opCompile_bufsmerge, h]
  · intro h
    rw [opCompile_bufsmerge, h]
    rfl
  · show (match bufsConcat c [String.mk s] with
      | .error e => .error e
      | .ok destbuf => .ok (c.varadd_buf (String.mk d) destbuf, k)) =
        Except.ok (c.varadd_buf (String.mk d) b, k)
    have hc : bufsConcat c [String.mk s] = .ok b := by
      show (match alookup c.bufs (String.mk s) with
        | none => .error ("ERRR:FuzzerK:VM:Op:BufsMerge:SrcBuf:" ++ String.mk s)
        | some bb =>
          match bufsConcat c [] with
          | .error e => .error e
          | .ok r => .ok (bb ++ r)) = Except.ok b
      rw [hbuf]
      show Except.ok (b ++ []) = Except.ok b
      rw [List.append_nil]
    rw [hc]

/-- Witness for C5's amended claim at `sargs = "dest src"` with a concrete
context holding `bufs[src] = [1, 2]`. -/
theorem claim_c5_witness :
    (alookup (Ctxt.new.varadd_buf "src" [1, 2]).bufs (String.mk "src".data) =
      some [1, 2]) ∧
    (splitWs (rustTrimChars ("dest src" : String).data) = ["dest".data, "src".data]) ∧
    (Op.compile ("bufsmerge " ++ "dest src") =
      .ok (.BufsMerge (String.mk "dest".data) [String.mk "src".data],
        ["WARN:FuzzerK:VM:Op:Compile:BufsMerge:Only a copy will occur, specify more buffers to concat:"
          ++ String.mk (rustTrimChars ("dest src" : String).data)]) ∧
    Op.run (.BufsMerge (String.mk "dest".data) [String.mk "src".data]) (fun _ => 0)
        (Ctxt.new.varadd_buf "src" [1, 2], 0) =
      .ok ((Ctxt.new.varadd_buf "src" [1, 2]).varadd_buf (String.mk "dest".data) [1, 2], 0)) :=
  ⟨by rfl, by rfl,
    (claim_c5_amended_zero_fatal_two_copy "dest src" "dest".data "src".data
      [1, 2] (Ctxt.new.varadd_buf "src" [1, 2]) (fun _ => 0) 0 (by rfl)).2.1 (by rfl),
    (claim_c5_amended_zero_fatal_two_copy "dest src" "dest".data "src".data
      [1, 2] (Ctxt.new.varadd_buf "src" [1, 2]) (fun _ => 0) 0 (by rfl)).2.2⟩

/-- Claim C4 (code-bug evaluation): the string view of the buffer
`[0xAB]` is `"1011"` — the concatenated decimal representations of the two
nibble values — and not the lowercase hex `"ab"` the specification
describes: `datautils::hex_from_vu8` pushes `bhigh.to_string()` and
`blow.to_string()`, so every nibble value at or above 10 is rendered as a
two-character decimal number. -/
theorem claim_c4_bufstring_not_hex :
    ((Variant.BufValue [171]).get_string (fun _ => 0) 0).1 = "1011" ∧
    ((Variant.BufValue [171]).get_string (fun _ => 0) 0).1 ≠ "ab" := by
  constructor
  · decide
  · decide

end DUK
